import Mathlib

/-!
Shallow embedding of the `cytosol-parser` recursive-descent parser
(`src/cytosol-parser/src/parser.rs`) together with proofs about it.

Tokens are consumed from an explicit `List Token`; every parsing function
returns its result together with the remaining (unconsumed) tokens, mirroring
the `Peekable` cursor of the source.  The length bounds carried by the result
types record that every parser consumes at least one token on success; this is
exactly the argument that makes every loop of the source terminate, and it is
what lets Lean accept all definitions by well-founded recursion on the number
of remaining tokens.
-/

namespace Cytosol

/-- Modelled from the spec: `FC` (the file-tagged span type) lives in the
external `cytosol_syntax` crate, which is not part of the parser source.
Per the spec glossary, a span is a file-tagged source range and `merge`
yields the smallest range covering both inputs. -/
structure FC where
  file : Nat
  lo : Nat
  hi : Nat
  deriving DecidableEq, Repr

/-- Modelled from the spec: merging two spans yields the smallest range
covering both (glossary, "spans merge into the smallest range covering
both"); the file tag is shared by all tokens of one parse. -/
def FC.merge (a b : FC) : FC :=
  { file := a.file, lo := min a.lo b.lo, hi := max a.hi b.hi }

/-- Modelled from the spec: file identifiers are opaque tags. -/
abbrev FileId := Nat

/-- Modelled from the spec (§3): the token kinds produced by the external
lexer, as used by `parser.rs`. -/
inductive TokenKind where
  | Record | Extern | Gene | Rule | When | Call | Express | Nothing
  | ParenOpen | ParenClose | BraceOpen | BraceClose | BracketOpen | BracketClose
  | Comma | Colon | Dot | ArrowR
  | OpPlus | OpMinus | OpStar | OpSlash
  | OpEquals | OpNotEquals | OpLessThan | OpLessThanEqual
  | OpGreaterThan | OpGreaterThanEqual
  | IntegerLiteral (n : Nat)
  | StringLiteral (s : String)
  | Identifier (name : String)
  deriving DecidableEq, Repr

/-- A lexer token: a kind together with its span. -/
structure Token where
  fc : FC
  kind : TokenKind
  deriving DecidableEq, Repr

/-- `Identifier(FC, String)` of `cytosol_syntax`. -/
structure Identifier where
  fc : FC
  name : String
  deriving DecidableEq, Repr

/-- `Type::Named` of `cytosol_syntax` (`Type` is not a legal Lean name). -/
inductive Ty where
  | Named (id : Identifier)
  deriving DecidableEq, Repr

/-- Binding attribute: quantity or rename source (mutually exclusive). -/
inductive BindingAttribute where
  | Quantity (fc : FC) (n : Nat)
  | Name (id : Identifier)
  deriving DecidableEq, Repr

/-- A gene factor / rule reactant binding. -/
structure Binding where
  fc : FC
  name : Identifier
  attr : Option BindingAttribute
  deriving DecidableEq, Repr

inductive InfixOperator where
  | Add | Sub | Mul | Div | Eq | Neq | Lt | Lte | Gt | Gte
  deriving DecidableEq, Repr

inductive PrefixOperator where
  | Neg
  deriving DecidableEq, Repr

inductive Literal where
  | Integer (fc : FC) (n : Nat)
  | Str (fc : FC) (s : String)
  deriving DecidableEq, Repr

inductive Expression where
  | Variable (id : Identifier)
  | Literal (lit : Cytosol.Literal)
  | InfixOp (op : FC × InfixOperator) (lhs rhs : Expression)
  | PrefixOp (op : FC × PrefixOperator) (expr : Expression)
  | Concentration (name : Identifier)
  | FieldAccess (base : Expression) (field_name : Identifier)
  deriving DecidableEq, Repr

/-- Modelled from the spec: the `HasFC` impl for expressions lives in the
external `cytosol_syntax` crate.  Per §3, a node's span is the merge of the
spans of the tokens/children it stores. -/
def Expression.fc : Expression → FC
  | .Variable id => id.fc
  | .Literal (.Integer f _) => f
  | .Literal (.Str f _) => f
  | .InfixOp op lhs rhs => (lhs.fc.merge op.1).merge rhs.fc
  | .PrefixOp op e => op.1.merge e.fc
  | .Concentration name => name.fc
  | .FieldAccess base field_name => base.fc.merge field_name.fc

/-- A product: optional quantity, name, field assignments. -/
structure Product where
  fc : FC
  quantity : Option (FC × Nat)
  name : Identifier
  fields : List (Identifier × Expression)
  deriving DecidableEq, Repr

inductive GeneStatement where
  | Call (fc : FC) (name : Identifier) (arguments : List (Identifier × Expression))
  | Express (fc : FC) (prod : Product)
  deriving DecidableEq, Repr

structure Record where
  fc : FC
  name : Identifier
  fields : List (Identifier × Ty)
  deriving DecidableEq, Repr

structure Extern where
  fc : FC
  name : Identifier
  parameters : List (Identifier × Ty)
  deriving DecidableEq, Repr

structure Gene where
  fc : FC
  factors : List Binding
  when : Option Expression
  body : List GeneStatement
  deriving DecidableEq, Repr

structure Rule where
  fc : FC
  reactants : List Binding
  products : List Product
  when : Option Expression
  deriving DecidableEq, Repr

/-- The AST root; `File::default()` has all four sequences empty. -/
structure File where
  records : List Record := []
  externs : List Extern := []
  genes : List Gene := []
  rules : List Rule := []
  deriving DecidableEq, Repr

/-- The context in which an error appeared in (`ErrorContext` of the source,
with `&'static str` embedded as `String`). -/
structure ErrorContext where
  start : Option (FC × String) := none
  while_parsing : String := ""
  expected : Option String := none
  deriving DecidableEq, Repr

/-- The `CTX` constant of the source: the empty error context. -/
def CTX : ErrorContext := {}

/-- `ErrorContext::start` of the source (a Lean projection already uses the
name `start`). -/
def ErrorContext.atStart (self : ErrorContext) (fc : FC) (reference_desc : String) :
    ErrorContext :=
  { self with start := some (fc, reference_desc) }

/-- `ErrorContext::while_parsing` of the source. -/
def ErrorContext.whileParsing (self : ErrorContext) (wp : String) : ErrorContext :=
  { self with while_parsing := wp }

/-- `ErrorContext::expected` of the source. -/
def ErrorContext.expecting (self : ErrorContext) (e : String) : ErrorContext :=
  { self with expected := some e }

/-- The two error kinds of the parser. -/
inductive Error where
  | UnexpectedToken (fc : FC) (ctx : ErrorContext)
  | UnexpectedEnd (file : FileId) (ctx : ErrorContext)
  deriving DecidableEq, Repr

/-- `true` iff the error is of the `UnexpectedEnd` kind. -/
def Error.isUnexpectedEnd : Error → Bool
  | .UnexpectedEnd _ _ => true
  | .UnexpectedToken _ _ => false

/-- Result of a parsing step on an input of length `n`: the outcome, the
remaining (unconsumed) tokens, and the bookkeeping that the parser consumed
at least one token on success and never invents tokens. -/
structure PRes (α : Type) (n : Nat) where
  res : Except Error α
  rest : List Token
  hlt : ∀ a, res = Except.ok a → rest.length < n
  hle : rest.length ≤ n

/-- Like `PRes` but without the guarantee of consuming a token on success
(used for the postfix/infix loops, which may succeed without consuming). -/
structure QRes (α : Type) (n : Nat) where
  res : Except Error α
  rest : List Token
  hle : rest.length ≤ n

def PRes.err {α : Type} {n : Nat} (e : Error) (rest : List Token)
    (h : rest.length ≤ n) : PRes α n :=
  ⟨Except.error e, rest, fun _ h2 => Except.noConfusion h2, h⟩

def PRes.okRes {α : Type} {n : Nat} (a : α) (rest : List Token)
    (h : rest.length < n) : PRes α n :=
  ⟨Except.ok a, rest, fun _ _ => h, Nat.le_of_lt h⟩

def QRes.err {α : Type} {n : Nat} (e : Error) (rest : List Token)
    (h : rest.length ≤ n) : QRes α n :=
  ⟨Except.error e, rest, h⟩

def QRes.okQ {α : Type} {n : Nat} (a : α) (rest : List Token)
    (h : rest.length ≤ n) : QRes α n :=
  ⟨Except.ok a, rest, h⟩

def PRes.toQ {α : Type} {n : Nat} (r : PRes α n) : QRes α n :=
  ⟨r.res, r.rest, r.hle⟩

def QRes.widenQ {α : Type} {m n : Nat} (r : QRes α m) (h : m ≤ n) : QRes α n :=
  ⟨r.res, r.rest, Nat.le_trans r.hle h⟩

/-- Repackage a result obtained after at least one token was already
consumed: the strict bound then holds no matter the outcome. -/
def PRes.afterConsume {α : Type} {m n : Nat} (r : PRes α m) (h : m < n) : PRes α n :=
  ⟨r.res, r.rest, fun _ _ => Nat.lt_of_le_of_lt r.hle h,
    Nat.le_of_lt (Nat.lt_of_le_of_lt r.hle h)⟩

/-- Same as `PRes.afterConsume` for loop-style results. -/
def QRes.afterConsumeQ {α : Type} {m n : Nat} (r : QRes α m) (h : m < n) : PRes α n :=
  ⟨r.res, r.rest, fun _ _ => Nat.lt_of_le_of_lt r.hle h,
    Nat.le_of_lt (Nat.lt_of_le_of_lt r.hle h)⟩

def PRes.map {α β : Type} {n : Nat} (f : α → β) (r : PRes α n) : PRes β n :=
  match r with
  | ⟨Except.ok a, rest, hlt, hle⟩ =>
      ⟨Except.ok (f a), rest, fun _ _ => hlt a rfl, hle⟩
  | ⟨Except.error e, rest, _, hle⟩ =>
      ⟨Except.error e, rest, fun _ h => Except.noConfusion h, hle⟩

/-- Sequencing: run `r`, and on success continue with `f` on the remaining
tokens (the Rust `?` operator followed by further parsing). -/
def PRes.bind {α β : Type} {n : Nat} (r : PRes α n)
    (f : (a : α) → (l : List Token) → l.length < n → PRes β l.length) : PRes β n :=
  match r with
  | ⟨Except.ok a, rest, hlt, _⟩ =>
      (f a rest (hlt a rfl)).afterConsume (hlt a rfl)
  | ⟨Except.error e, rest, _, hle⟩ => PRes.err e rest hle

/-- Sequencing where the continuation need not consume further tokens. -/
def PRes.bindQ {α β : Type} {n : Nat} (r : PRes α n)
    (f : (a : α) → (l : List Token) → l.length < n → QRes β l.length) : PRes β n :=
  match r with
  | ⟨Except.ok a, rest, hlt, _⟩ =>
      (f a rest (hlt a rfl)).afterConsumeQ (hlt a rfl)
  | ⟨Except.error e, rest, _, hle⟩ => PRes.err e rest hle

/-- `Parser::expect` instantiated at a boolean matcher: peek, and consume
only when the matcher holds; report `UnexpectedToken` at the still-pending
token otherwise, `UnexpectedEnd` when the sequence is exhausted. -/
def expect (file : FileId) (context : ErrorContext) (f : Token → Bool) :
    (ts : List Token) → PRes Unit ts.length
  | [] => PRes.err (.UnexpectedEnd file context) [] (Nat.le_refl _)
  | t :: ts1 =>
    if f t then PRes.okRes () ts1 (Nat.lt_succ_self _)
    else PRes.err (.UnexpectedToken t.fc context) (t :: ts1) (Nat.le_refl _)

/-- `Parser::expect_tok_and_fc` at an `Option`-returning matcher: as
`expect`, but also return the matched token's span. -/
def expect_tok_and_fc {α : Type} (file : FileId) (context : ErrorContext)
    (f : Token → Option α) : (ts : List Token) → PRes (FC × α) ts.length
  | [] => PRes.err (.UnexpectedEnd file context) [] (Nat.le_refl _)
  | t :: ts1 =>
    match f t with
    | some a => PRes.okRes (t.fc, a) ts1 (Nat.lt_succ_self _)
    | none => PRes.err (.UnexpectedToken t.fc context) (t :: ts1) (Nat.le_refl _)

/-- `Parser::parse_identifier`. -/
def parse_identifier (file : FileId) (parent_error_context : ErrorContext)
    (ts : List Token) : PRes Identifier ts.length :=
  (expect_tok_and_fc file (parent_error_context.expecting "an identifier")
      (fun t => match t.kind with
        | .Identifier i => some i
        | _ => none) ts).map
    (fun p => Identifier.mk p.1 p.2)

/-- `Parser::parse_type`. -/
def parse_type (file : FileId) (pec : ErrorContext) (ts : List Token) :
    PRes Ty ts.length :=
  (parse_identifier file (pec.whileParsing "a type") ts).map Ty.Named

/-- The loop of `Parser::grouped`: repeatedly check for the closing token
(consuming it ends the loop) and otherwise run the element parser.  No
separator is consumed between elements. -/
def groupedLoop {T : Type} (close : TokenKind) (start_fc : FC)
    (f : (l : List Token) → PRes T l.length) (vals : List T) :
    (ts : List Token) → PRes (FC × List T) ts.length
  | [] => (f []).bind fun v l _ => groupedLoop close start_fc f (vals ++ [v]) l
  | t :: ts1 =>
    if t.kind = close then
      PRes.okRes (start_fc.merge t.fc, vals) ts1 (Nat.lt_succ_self _)
    else
      (f (t :: ts1)).bind fun v l _ =>
        groupedLoop close start_fc f (vals ++ [v]) l
  termination_by ts => ts.length
  decreasing_by
  · omega
  · omega

/-- `Parser::grouped`: consume the opening delimiter then run the loop. -/
def grouped {T : Type} (file : FileId) (dOpen dClose : TokenKind)
    (start_delim_context : ErrorContext)
    (f : (l : List Token) → PRes T l.length)
    (ts : List Token) : PRes (FC × List T) ts.length :=
  (expect_tok_and_fc file start_delim_context
      (fun t => if t.kind = dOpen then some () else none) ts).bindQ
    fun sf l _ => (groupedLoop dClose sf.1 f [] l).toQ

/-- The loop of `Parser::grouped_separated`: check for the closing token
first (so trailing separators are accepted), otherwise parse an element and
then require either the separator (continue) or the closing token (stop). -/
def groupedSepLoop {T : Type} (file : FileId) (dClose separator : TokenKind)
    (separator_or_delim_end_context : ErrorContext) (start_fc : FC)
    (f : (l : List Token) → PRes T l.length) (vals : List T) :
    (ts : List Token) → PRes (FC × List T) ts.length
  | [] =>
    (f []).bind fun v l _ =>
      groupedSepLoop file dClose separator separator_or_delim_end_context
        start_fc f (vals ++ [v]) l
  | t :: ts1 =>
    if t.kind = dClose then
      PRes.okRes (start_fc.merge t.fc, vals) ts1 (Nat.lt_succ_self _)
    else
      (f (t :: ts1)).bindQ fun v l _ =>
        ((expect_tok_and_fc file separator_or_delim_end_context (fun tok =>
            if tok.kind = dClose then some true
            else if tok.kind = separator then some false
            else none) l).bindQ fun fcEnd l2 _ =>
          if fcEnd.2 then
            QRes.okQ (start_fc.merge fcEnd.1, vals ++ [v]) l2 (Nat.le_refl _)
          else
            (groupedSepLoop file dClose separator separator_or_delim_end_context
              start_fc f (vals ++ [v]) l2).toQ).toQ
  termination_by ts => ts.length
  decreasing_by
  · omega
  · omega

/-- `Parser::grouped_separated`: consume the opening delimiter then loop. -/
def grouped_separated {T : Type} (file : FileId) (dOpen dClose : TokenKind)
    (delim_start_context : ErrorContext) (separator : TokenKind)
    (separator_or_delim_end_context : ErrorContext)
    (f : (l : List Token) → PRes T l.length)
    (ts : List Token) : PRes (FC × List T) ts.length :=
  (expect_tok_and_fc file delim_start_context
      (fun t => if t.kind = dOpen then some () else none) ts).bindQ
    fun sf l _ =>
      (groupedSepLoop file dClose separator separator_or_delim_end_context
        sf.1 f [] l).toQ

/-- The loop of `Parser::separated`: while the next token is the separator,
consume it and parse one more element; stop on any other token or at the end
of the sequence.  `acc ++ [lastV]` is the `vals` vector of the source. -/
def separatedLoop {T : Type} (sep : TokenKind) (fcOf : T → FC) (start_fc : FC)
    (f : (l : List Token) → PRes T l.length) (acc : List T) (lastV : T) :
    (ts : List Token) → QRes (FC × List T) ts.length
  | [] => QRes.okQ (start_fc.merge (fcOf lastV), acc ++ [lastV]) [] (Nat.le_refl _)
  | t :: ts1 =>
    if t.kind = sep then
      ((f ts1).bindQ fun v l _ =>
        separatedLoop sep fcOf start_fc f (acc ++ [lastV]) v l).toQ.widenQ
        (Nat.le_succ _)
    else
      QRes.okQ (start_fc.merge (fcOf lastV), acc ++ [lastV]) (t :: ts1)
        (Nat.le_refl _)
  termination_by ts => ts.length
  decreasing_by
  · simp only [List.length_cons]
    omega

/-- `Parser::separated` (generic over the `HasFC` accessor `fcOf`): one
required element, then the loop. -/
def separated {T : Type} (file : FileId) (sep : TokenKind) (fcOf : T → FC)
    (context : ErrorContext) (f : (l : List Token) → PRes T l.length) :
    (ts : List Token) → PRes (FC × List T) ts.length
  | [] => PRes.err (.UnexpectedEnd file context) [] (Nat.le_refl _)
  | t :: ts1 =>
    (f (t :: ts1)).bindQ fun v l _ =>
      separatedLoop sep fcOf t.fc f [] v l

/-- The postfix loop at the end of `Parser::parse_expression_atom`: consume
any run of `.`-identifier pairs, left-associatively wrapping the result in
field-access nodes. -/
def postfixLoop (file : FileId) (pec : ErrorContext) (expr : Expression) :
    (ts : List Token) → QRes Expression ts.length
  | [] => QRes.okQ expr [] (Nat.le_refl _)
  | next :: ts1 =>
    if next.kind = .Dot then
      ((parse_identifier file (pec.whileParsing "a filed access expression")
          ts1).bindQ fun name l _ =>
        postfixLoop file pec (Expression.FieldAccess expr name) l).toQ.widenQ
        (Nat.le_succ _)
    else
      QRes.okQ expr (next :: ts1) (Nat.le_refl _)
  termination_by ts => ts.length
  decreasing_by
  · simp only [List.length_cons]
    omega

/-- The operator-token dispatch at the head of the infix loop of
`Parser::parse_expression`. -/
def infixOpOf (next : Token) : Option (FC × InfixOperator) :=
  match next.kind with
  | .OpPlus => some (next.fc, .Add)
  | .OpMinus => some (next.fc, .Sub)
  | .OpStar => some (next.fc, .Mul)
  | .OpSlash => some (next.fc, .Div)
  | .OpEquals => some (next.fc, .Eq)
  | .OpNotEquals => some (next.fc, .Neq)
  | .OpLessThan => some (next.fc, .Lt)
  | .OpLessThanEqual => some (next.fc, .Lte)
  | .OpGreaterThan => some (next.fc, .Gt)
  | .OpGreaterThanEqual => some (next.fc, .Gte)
  | _ => none

mutual

/-- `Parser::parse_expression`: one atom, then the infix loop. -/
def parse_expression (file : FileId) (pec : ErrorContext)
    (ts : List Token) : PRes Expression ts.length :=
  (parse_expression_atom file pec ts).bindQ fun e l _ =>
    parse_expression_go file pec e l
  termination_by 3 * ts.length + 2
  decreasing_by
  all_goals
    try simp only [List.length_cons] at *
    omega

/-- The infix loop of `Parser::parse_expression`: while the next token is an
infix operator, consume it, parse one more atom, and combine strictly
left-to-right at a single precedence level. -/
def parse_expression_go (file : FileId) (pec : ErrorContext) (expr : Expression)
    (ts : List Token) : QRes Expression ts.length :=
  match ts with
  | [] => QRes.okQ expr [] (Nat.le_refl _)
  | next :: ts1 =>
    match infixOpOf next with
    | none => QRes.okQ expr (next :: ts1) (Nat.le_refl _)
    | some op =>
      ((parse_expression_atom file pec ts1).bindQ fun rhs l _ =>
        parse_expression_go file pec (Expression.InfixOp op expr rhs) l).toQ.widenQ
        (Nat.le_succ _)
  termination_by 3 * ts.length + 1
  decreasing_by
  all_goals
    try simp only [List.length_cons] at *
    omega

/-- `Parser::parse_expression_atom`: the leading-token dispatch followed by
the postfix field-access loop. -/
def parse_expression_atom (file : FileId) (pec : ErrorContext)
    (ts : List Token) : PRes Expression ts.length :=
  match ts with
  | [] =>
    PRes.err (.UnexpectedEnd file (pec.whileParsing "an expression atom")) []
      (Nat.le_refl _)
  | next :: ts1 =>
    let base : PRes Expression (next :: ts1).length :=
      match next.kind with
      | .Identifier n =>
        PRes.okRes (Expression.Variable (Identifier.mk next.fc n)) ts1
          (Nat.lt_succ_self _)
      | .IntegerLiteral i =>
        PRes.okRes (Expression.Literal (.Integer next.fc i)) ts1
          (Nat.lt_succ_self _)
      | .StringLiteral s =>
        PRes.okRes (Expression.Literal (.Str next.fc s)) ts1
          (Nat.lt_succ_self _)
      | .BracketOpen =>
        ((parse_identifier file
            (pec.whileParsing "a type inside a concentration expression")
            ts1).bindQ fun name l _ =>
          ((expect file
              ((pec.whileParsing "a concentration expression").expecting "`]`")
              (fun t => t.kind == .BracketClose) l).map
            (fun _ => Expression.Concentration name)).toQ).afterConsume
          (Nat.lt_succ_self _)
      | .ParenOpen =>
        ((parse_expression file pec ts1).bindQ fun val l _ =>
          ((expect file ((pec.whileParsing "a nested expression").expecting "`)`")
              (fun t => t.kind == .ParenClose) l).map (fun _ => val)).toQ).afterConsume
          (Nat.lt_succ_self _)
      | .OpMinus =>
        ((parse_expression_atom file pec ts1).map fun rhs =>
          Expression.PrefixOp (next.fc, .Neg) rhs).afterConsume
          (Nat.lt_succ_self _)
      | _ =>
        PRes.err (.UnexpectedToken next.fc (pec.whileParsing "an expression atom"))
          (next :: ts1) (Nat.le_refl _)
    base.bindQ fun e l _ => postfixLoop file pec e l
  termination_by 3 * ts.length
  decreasing_by
  all_goals
    try simp only [List.length_cons] at *
    omega

end

/-- `Parser::parse_binding`: a quantity-attributed, renamed, or plain
binding, dispatched on the leading token. -/
def parse_binding (file : FileId) (pec : ErrorContext) (ts : List Token) :
    PRes Binding ts.length :=
  match ts with
  | [] =>
    PRes.err (.UnexpectedEnd file
      ((pec.whileParsing "a binding").expecting "a quantity or identifier")) []
      (Nat.le_refl _)
  | next :: ts1 =>
    let ec := (pec.whileParsing "a binding").atStart next.fc "binding"
    match next.kind with
    | .IntegerLiteral n =>
      ((parse_identifier file ec ts1).map fun name =>
        Binding.mk (next.fc.merge name.fc) name
          (some (.Quantity next.fc n))).afterConsume (Nat.lt_succ_self _)
    | .Identifier _ =>
      (parse_identifier file ec (next :: ts1)).bindQ fun id l _ =>
        match l with
        | t2 :: l1 =>
          if t2.kind = .Colon then
            (((parse_identifier file ec l1).map fun name =>
              Binding.mk (id.fc.merge name.fc) name
                (some (.Name id))).afterConsume (Nat.lt_succ_self _)).toQ
          else
            QRes.okQ (Binding.mk id.fc id none) (t2 :: l1) (Nat.le_refl _)
        | [] => QRes.okQ (Binding.mk id.fc id none) [] (Nat.le_refl _)
    | _ =>
      PRes.err (.UnexpectedToken next.fc
        ((pec.whileParsing "a record binding").expecting "a quantity or identifier"))
        (next :: ts1) (Nat.le_refl _)

/-- The product-field element closure inside `Parser::parse_product`:
`identifier : expression`. -/
def productFieldParser (file : FileId) (ec : ErrorContext) (l : List Token) :
    PRes (Identifier × Expression) l.length :=
  (parse_identifier file (ec.whileParsing "a product field") l).bindQ
    fun name l2 _ =>
      ((expect_tok_and_fc file
          ((ec.whileParsing "a product field").expecting "`:`")
          (fun t => if t.kind = .Colon then some () else none) l2).bindQ
        fun colonR l3 _ =>
          ((parse_expression file
              ((CTX.atStart colonR.1 "beginning of expression").whileParsing
                "an expression") l3).map fun expr => (name, expr)).toQ).toQ

/-- The tail of `Parser::parse_product` after the optional leading integer
quantity has been handled. -/
def parse_productAfterQty (file : FileId) (pec : ErrorContext)
    (quantity : Option (FC × Nat)) (ts : List Token) : PRes Product ts.length :=
  (parse_identifier file (pec.whileParsing "a product") ts).bindQ fun name l _ =>
    let start_fc := match quantity with
      | some (f, _) => f
      | none => name.fc
    let ec := (CTX.atStart start_fc "product").whileParsing "a product"
    match l with
    | t2 :: l1 =>
      if t2.kind = .ParenOpen then
        ((grouped_separated file .ParenOpen .ParenClose
            ((ec.whileParsing "the start of product fields").expecting "`(`")
            .Comma
            ((ec.whileParsing "a product field list").expecting "`,` or `)`")
            (productFieldParser file ec) (t2 :: l1)).map fun p =>
          Product.mk (start_fc.merge p.1) quantity name p.2).toQ
      else
        QRes.okQ (Product.mk (start_fc.merge name.fc) quantity name [])
          (t2 :: l1) (Nat.le_refl _)
    | [] =>
      QRes.okQ (Product.mk (start_fc.merge name.fc) quantity name []) []
        (Nat.le_refl _)

/-- `Parser::parse_product`: optional integer quantity, required name,
optional parenthesized field assignments. -/
def parse_product (file : FileId) (pec : ErrorContext) (ts : List Token) :
    PRes Product ts.length :=
  match ts with
  | t :: ts1 =>
    match t.kind with
    | .IntegerLiteral n =>
      (parse_productAfterQty file pec (some (t.fc, n)) ts1).afterConsume
        (Nat.lt_succ_self _)
    | _ => parse_productAfterQty file pec none (t :: ts1)
  | [] => parse_productAfterQty file pec none []

/-- `Parser::parse_product_list`: the `nothing` keyword yields an empty
product list; otherwise one-or-more products separated by `+`. -/
def parse_product_list (file : FileId) (pec : ErrorContext) (ts : List Token) :
    PRes (FC × List Product) ts.length :=
  match ts with
  | [] =>
    PRes.err (.UnexpectedEnd file (pec.whileParsing "a product list")) []
      (Nat.le_refl _)
  | next :: ts1 =>
    if next.kind = .Nothing then
      PRes.okRes (next.fc, []) ts1 (Nat.lt_succ_self _)
    else
      separated file .OpPlus Product.fc (pec.whileParsing "a product list")
        (fun l => parse_product file
          ((CTX.atStart next.fc "product list").whileParsing "a product list") l)
        (next :: ts1)

/-- The named-argument element closure inside the `call` branch of
`Parser::parse_gene_statement`. -/
def callArgParser (file : FileId) (ec : ErrorContext) (l : List Token) :
    PRes (Identifier × Expression) l.length :=
  (parse_identifier file (ec.whileParsing "a named argument") l).bindQ
    fun name l2 _ =>
      ((expect_tok_and_fc file
          ((ec.whileParsing "a named argument").expecting "`:`")
          (fun t => if t.kind = .Colon then some () else none) l2).bindQ
        fun colonR l3 _ =>
          ((parse_expression file
              ((CTX.atStart colonR.1 "beginning of expression").whileParsing
                "an expression") l3).map fun val => (name, val)).toQ).toQ

/-- `Parser::parse_gene_statement`: `call` or `express`. -/
def parse_gene_statement (file : FileId) (pec : ErrorContext) (ts : List Token) :
    PRes GeneStatement ts.length :=
  match ts with
  | [] =>
    PRes.err (.UnexpectedEnd file (pec.whileParsing "a gene statement")) []
      (Nat.le_refl _)
  | next :: ts1 =>
    match next.kind with
    | .Call =>
      let ec := CTX.atStart next.fc "call statement"
      ((parse_identifier file (ec.whileParsing "a call statement") ts1).bindQ
        fun name l _ =>
          ((grouped_separated file .ParenOpen .ParenClose
              ((ec.whileParsing "a call statement parameter list").expecting "`(`")
              .Comma
              ((ec.whileParsing "a call statement parameter list").expecting
                "`,` or `)`")
              (callArgParser file ec) l).map fun p =>
            GeneStatement.Call (next.fc.merge p.1) name p.2).toQ).afterConsume
        (Nat.lt_succ_self _)
    | .Express =>
      ((parse_product file
          ((CTX.atStart next.fc "express statement").whileParsing
            "an express statement") ts1).map fun prod =>
        GeneStatement.Express next.fc prod).afterConsume (Nat.lt_succ_self _)
    | _ =>
      PRes.err (.UnexpectedToken next.fc
        ((pec.whileParsing "a gene statement").expecting "`call` or `express`"))
        (next :: ts1) (Nat.le_refl _)

/-- The record-field element closure inside the `record` branch of
`Parser::parse_file`: `identifier : type`. -/
def recordFieldParser (file : FileId) (ec : ErrorContext) (l : List Token) :
    PRes (Identifier × Ty) l.length :=
  (parse_identifier file (ec.whileParsing "a record field") l).bindQ
    fun ident l2 _ =>
      ((expect_tok_and_fc file
          ((ec.whileParsing "a record field").expecting "`:`")
          (fun t => if t.kind = .Colon then some () else none) l2).bindQ
        fun colonR l3 _ =>
          ((parse_type file (ec.atStart colonR.1 "beginning of type") l3).map
            fun ty => (ident, ty)).toQ).toQ

/-- The parameter element closure inside the `extern` branch of
`Parser::parse_file`: `identifier : type`. -/
def externParamParser (file : FileId) (ec : ErrorContext) (l : List Token) :
    PRes (Identifier × Ty) l.length :=
  (parse_identifier file (ec.whileParsing "an extern item parameter") l).bindQ
    fun ident l2 _ =>
      ((expect_tok_and_fc file
          ((ec.whileParsing "an extern parameter description").expecting "`:`")
          (fun t => if t.kind = .Colon then some () else none) l2).bindQ
        fun colonR l3 _ =>
          ((parse_type file (ec.atStart colonR.1 "beginning of type") l3).map
            fun ty => (ident, ty)).toQ).toQ

/-- The `record` branch of `Parser::parse_file`, after the keyword (whose
span is `start_fc`) has been consumed. -/
def parse_record_item (file : FileId) (start_fc : FC) (ts : List Token) :
    PRes Record ts.length :=
  let ec := (CTX.atStart start_fc "record definition").whileParsing
    "a record definition"
  (parse_identifier file ec ts).bindQ fun name l _ =>
    match l with
    | t2 :: l1 =>
      if t2.kind = .ParenOpen then
        ((grouped_separated file .ParenOpen .ParenClose
            (((ec.atStart start_fc "field list").whileParsing
              "the field list of a record item").expecting "`(`")
            .Comma
            (((ec.atStart start_fc "field list").whileParsing
              "the field list of a record item").expecting "`,` or `)`")
            (recordFieldParser file ec) (t2 :: l1)).map fun p =>
          Record.mk (start_fc.merge p.1) name p.2).toQ
      else
        QRes.okQ (Record.mk (start_fc.merge name.fc) name []) (t2 :: l1)
          (Nat.le_refl _)
    | [] =>
      QRes.okQ (Record.mk (start_fc.merge name.fc) name []) [] (Nat.le_refl _)

/-- The `extern` branch of `Parser::parse_file`, after the keyword. -/
def parse_extern_item (file : FileId) (start_fc : FC) (ts : List Token) :
    PRes Extern ts.length :=
  let ec := (CTX.atStart start_fc "extern item").whileParsing "an extern item"
  (parse_identifier file ec ts).bindQ fun name l _ =>
    ((grouped_separated file .ParenOpen .ParenClose
        ((ec.whileParsing "the parameter list of an extern item").expecting "`(`")
        .Comma
        ((ec.whileParsing "the parameter list of an extern item").expecting
          "`,` or `)`")
        (externParamParser file ec) l).map fun p =>
      Extern.mk (start_fc.merge p.1) name p.2).toQ

/-- The brace-delimited statement body at the end of the `gene` branch of
`Parser::parse_file`. -/
def geneBody (file : FileId) (ec : ErrorContext) (start_fc : FC)
    (factors : List Binding) (whenOpt : Option Expression) (ts : List Token) :
    PRes Gene ts.length :=
  (grouped file .BraceOpen .BraceClose
      ((ec.whileParsing "a gene statement list").expecting "`\x7b`")
      (fun l => parse_gene_statement file ec l) ts).map fun p =>
    Gene.mk (start_fc.merge p.1) factors whenOpt p.2

/-- The `gene` branch of `Parser::parse_file`, after the keyword. -/
def parse_gene_item (file : FileId) (start_fc : FC) (ts : List Token) :
    PRes Gene ts.length :=
  let ec := (CTX.atStart start_fc "gene item").whileParsing "a gene item"
  (grouped_separated file .ParenOpen .ParenClose
      ((ec.whileParsing "a gene factor list").expecting "`(`") .Comma
      ((ec.whileParsing "a gene factor list").expecting "`,` or `)`")
      (fun l => parse_binding file ec l) ts).bindQ fun fg l _ =>
    match l with
    | [] =>
      QRes.err (.UnexpectedEnd file (ec.whileParsing "gene item")) []
        (Nat.le_refl _)
    | t2 :: l1 =>
      if t2.kind = .When then
        let wec := (ec.whileParsing "a when clause").atStart t2.fc "when clause"
        (((parse_expression file wec l1).bindQ fun expr l2 _ =>
          (geneBody file ec start_fc fg.2 (some expr) l2).toQ).afterConsume
          (Nat.lt_succ_self _)).toQ
      else
        (geneBody file ec start_fc fg.2 none (t2 :: l1)).toQ

/-- The `rule` branch of `Parser::parse_file`, after the keyword. -/
def parse_rule_item (file : FileId) (start_fc : FC) (ts : List Token) :
    PRes Rule ts.length :=
  let ec := (CTX.atStart start_fc "rule item").whileParsing "a rule item"
  (grouped_separated file .ParenOpen .ParenClose
      ((ec.whileParsing "a rule reactant list").expecting "`(`") .Comma
      ((ec.whileParsing "a rule reactant list").expecting "`,` or `)`")
      (fun l => parse_binding file ec l) ts).bindQ fun rg l _ =>
    ((expect file
        ((ec.whileParsing "a rule reaction description").expecting "`->`")
        (fun t => t.kind == .ArrowR) l).bindQ fun _ l2 _ =>
      ((parse_product_list file ec l2).bindQ fun pg l3 _ =>
        match l3 with
        | t4 :: l4 =>
          if t4.kind = .When then
            let wec := (ec.whileParsing "a when clause").atStart t4.fc "when clause"
            (((parse_expression file wec l4).map fun expr =>
              Rule.mk (start_fc.merge expr.fc) rg.2 pg.2 (some expr)).afterConsume
              (Nat.lt_succ_self _)).toQ
          else
            QRes.okQ (Rule.mk (start_fc.merge pg.1) rg.2 pg.2 none) (t4 :: l4)
              (Nat.le_refl _)
        | [] =>
          QRes.okQ (Rule.mk (start_fc.merge pg.1) rg.2 pg.2 none) []
            (Nat.le_refl _)).toQ).toQ

/-- The top-level item loop of `Parser::parse_file`: dispatch on the leading
token, parse one item, continue on the remaining tokens.  Returns the
outcome together with the cursor's remaining tokens. -/
def parseItems (file : FileId) (acc : File) (ts : List Token) :
    Except Error File × List Token :=
  match ts with
  | [] => (Except.ok acc, [])
  | t :: ts1 =>
    match t.kind with
    | .Record =>
      let r := parse_record_item file t.fc ts1
      match r.res with
      | .ok rcd => parseItems file { acc with records := acc.records ++ [rcd] } r.rest
      | .error e => (Except.error e, r.rest)
    | .Extern =>
      let r := parse_extern_item file t.fc ts1
      match r.res with
      | .ok ex => parseItems file { acc with externs := acc.externs ++ [ex] } r.rest
      | .error e => (Except.error e, r.rest)
    | .Gene =>
      let r := parse_gene_item file t.fc ts1
      match r.res with
      | .ok g => parseItems file { acc with genes := acc.genes ++ [g] } r.rest
      | .error e => (Except.error e, r.rest)
    | .Rule =>
      let r := parse_rule_item file t.fc ts1
      match r.res with
      | .ok ru => parseItems file { acc with rules := acc.rules ++ [ru] } r.rest
      | .error e => (Except.error e, r.rest)
    | _ =>
      (Except.error (.UnexpectedToken t.fc
        ((CTX.whileParsing "a top level item").expecting
          "`record`, `gene`, `rule` or `extern`")), t :: ts1)
  termination_by ts.length
  decreasing_by
  all_goals
    simp only [List.length_cons]
    exact Nat.lt_succ_of_le (PRes.hle _)

/-- The entry point `parse_file`: run the parser on a token sequence tagged
with one file id.  The second component is the cursor's remaining tokens
(empty on success). -/
def parse_file (file : FileId) (ts : List Token) :
    Except Error File × List Token :=
  parseItems file {} ts

attribute [simp] PRes.err PRes.okRes QRes.err QRes.okQ PRes.map PRes.bind
  PRes.bindQ PRes.toQ QRes.widenQ PRes.afterConsume QRes.afterConsumeQ
  expect expect_tok_and_fc parse_identifier parse_type groupedLoop
  grouped groupedSepLoop grouped_separated separatedLoop separated postfixLoop
  infixOpOf parse_expression parse_expression_go parse_expression_atom
  parse_binding productFieldParser parse_productAfterQty parse_product
  parse_product_list callArgParser parse_gene_statement recordFieldParser
  externParamParser parse_record_item parse_extern_item geneBody
  parse_gene_item parse_rule_item parseItems parse_file ErrorContext.atStart
  ErrorContext.whileParsing ErrorContext.expecting CTX FC.merge
  Error.isUnexpectedEnd

@[simp] theorem PRes.toQ_res {α : Type} {n : Nat} (r : PRes α n) :
    r.toQ.res = r.res := rfl

@[simp] theorem PRes.toQ_rest {α : Type} {n : Nat} (r : PRes α n) :
    r.toQ.rest = r.rest := rfl

@[simp] theorem QRes.widenQ_res {α : Type} {m n : Nat} (r : QRes α m) (h : m ≤ n) :
    (r.widenQ h).res = r.res := rfl

@[simp] theorem QRes.widenQ_rest {α : Type} {m n : Nat} (r : QRes α m) (h : m ≤ n) :
    (r.widenQ h).rest = r.rest := rfl

@[simp] theorem PRes.afterConsume_res {α : Type} {m n : Nat} (r : PRes α m)
    (h : m < n) : (r.afterConsume h).res = r.res := rfl

@[simp] theorem PRes.afterConsume_rest {α : Type} {m n : Nat} (r : PRes α m)
    (h : m < n) : (r.afterConsume h).rest = r.rest := rfl

@[simp] theorem QRes.afterConsumeQ_res {α : Type} {m n : Nat} (r : QRes α m)
    (h : m < n) : (r.afterConsumeQ h).res = r.res := rfl

@[simp] theorem QRes.afterConsumeQ_rest {α : Type} {m n : Nat} (r : QRes α m)
    (h : m < n) : (r.afterConsumeQ h).rest = r.rest := rfl

theorem PRes.map_res {α β : Type} {n : Nat} (f : α → β) (r : PRes α n) :
    (r.map f).res = r.res.map f := by
  cases r with
  | mk res rest hlt hle => cases res <;> rfl

theorem PRes.map_rest {α β : Type} {n : Nat} (f : α → β) (r : PRes α n) :
    (r.map f).rest = r.rest := by
  cases r with
  | mk res rest hlt hle => cases res <;> rfl

theorem PRes.bindQ_of_ok {α β : Type} {n : Nat} {r : PRes α n}
    {f : (a : α) → (l : List Token) → l.length < n → QRes β l.length} {a : α}
    (hr : r.res = Except.ok a) :
    r.bindQ f = (f a r.rest (r.hlt a hr)).afterConsumeQ (r.hlt a hr) := by
  cases r with
  | mk res rest hlt hle =>
    cases res with
    | ok b =>
      cases hr
      rfl
    | error e => exact absurd hr (by simp)

theorem PRes.bindQ_of_err {α β : Type} {n : Nat} {r : PRes α n}
    {f : (a : α) → (l : List Token) → l.length < n → QRes β l.length} {e : Error}
    (hr : r.res = Except.error e) :
    r.bindQ f = PRes.err e r.rest r.hle := by
  cases r with
  | mk res rest hlt hle =>
    cases res with
    | ok b => exact absurd hr (by simp)
    | error e2 =>
      cases hr
      rfl

theorem PRes.bind_of_ok {α β : Type} {n : Nat} {r : PRes α n}
    {f : (a : α) → (l : List Token) → l.length < n → PRes β l.length} {a : α}
    (hr : r.res = Except.ok a) :
    r.bind f = (f a r.rest (r.hlt a hr)).afterConsume (r.hlt a hr) := by
  cases r with
  | mk res rest hlt hle =>
    cases res with
    | ok b =>
      cases hr
      rfl
    | error e => exact absurd hr (by simp)

theorem PRes.bind_of_err {α β : Type} {n : Nat} {r : PRes α n}
    {f : (a : α) → (l : List Token) → l.length < n → PRes β l.length} {e : Error}
    (hr : r.res = Except.error e) :
    r.bind f = PRes.err e r.rest r.hle := by
  cases r with
  | mk res rest hlt hle =>
    cases res with
    | ok b => exact absurd hr (by simp)
    | error e2 =>
      cases hr
      rfl

theorem PRes.eqOfParts {α : Type} {n : Nat} {r s : PRes α n} (h1 : r.res = s.res)
    (h2 : r.rest = s.rest) : r = s := by
  cases r
  cases s
  cases h1
  cases h2
  rfl

theorem QRes.eqOfPartsQ {α : Type} {n : Nat} {r s : QRes α n} (h1 : r.res = s.res)
    (h2 : r.rest = s.rest) : r = s := by
  cases r
  cases s
  cases h1
  cases h2
  rfl

/-- Convenience constructor for concrete tokens in closed statements: token
at file 0, covering source offsets `lo..lo+1`. -/
def tok (lo : Nat) (k : TokenKind) : Token := ⟨⟨0, lo, lo + 1⟩, k⟩

/-- The lexer token kind of each infix operator. -/
def infixTok : InfixOperator → TokenKind
  | .Add => .OpPlus
  | .Sub => .OpMinus
  | .Mul => .OpStar
  | .Div => .OpSlash
  | .Eq => .OpEquals
  | .Neq => .OpNotEquals
  | .Lt => .OpLessThan
  | .Lte => .OpLessThanEqual
  | .Gt => .OpGreaterThan
  | .Gte => .OpGreaterThanEqual

/-- Token sequence of a chain `op₁ v₁ op₂ v₂ …` of infix operators applied
to identifier operands, to be appended after a first operand. -/
def chainToks : List ((FC × InfixOperator) × (FC × String)) → List Token
  | [] => []
  | p :: ps =>
    ⟨p.1.1, infixTok p.1.2⟩ :: ⟨p.2.1, .Identifier p.2.2⟩ :: chainToks ps

/-- Strictly left-to-right combination of a chain at a single precedence
level: each step wraps the accumulated expression as the left operand. -/
def chainFold (e : Expression) :
    List ((FC × InfixOperator) × (FC × String)) → Expression
  | [] => e
  | p :: ps =>
    chainFold (Expression.InfixOp (p.1.1, p.1.2) e
      (Expression.Variable ⟨p.2.1, p.2.2⟩)) ps

theorem infixOpOf_infixTok (fc : FC) (o : InfixOperator) :
    infixOpOf ⟨fc, infixTok o⟩ = some (fc, o) := by
  cases o <;> rfl

theorem infixTok_ne_dot (o : InfixOperator) : infixTok o ≠ TokenKind.Dot := by
  cases o <;> simp [infixTok]

theorem chainToks_postfix (file : FileId) (pec : ErrorContext) (e : Expression)
    (ps : List ((FC × InfixOperator) × (FC × String))) :
    postfixLoop file pec e (chainToks ps) =
      QRes.okQ e (chainToks ps) (Nat.le_refl _) := by
  cases ps with
  | nil =>
    apply QRes.eqOfPartsQ <;> simp [postfixLoop, chainToks]
  | cons p ps =>
    apply QRes.eqOfPartsQ <;> simp [postfixLoop, chainToks, infixTok_ne_dot]

theorem parse_expression_go_chain (file : FileId) (pec : ErrorContext)
    (ps : List ((FC × InfixOperator) × (FC × String))) (e : Expression) :
    parse_expression_go file pec e (chainToks ps) =
      QRes.okQ (chainFold e ps) [] (by simp) := by
  induction ps generalizing e with
  | nil =>
    apply QRes.eqOfPartsQ <;> simp [parse_expression_go, chainToks, chainFold]
  | cons p ps ih =>
    obtain ⟨⟨f1, o⟩, ⟨f2, v⟩⟩ := p
    have hatom : parse_expression_atom file pec
        (⟨f2, .Identifier v⟩ :: chainToks ps) =
        PRes.okRes (Expression.Variable ⟨f2, v⟩) (chainToks ps)
          (Nat.lt_succ_self _) := by
      apply PRes.eqOfParts <;>
        simp [parse_expression_atom, chainToks_postfix]
    cases o <;>
      (apply QRes.eqOfPartsQ <;>
        simp [parse_expression_go, chainToks, infixTok, hatom, chainFold, ih])

/-- Claim C1: every chain of infix operators over identifier operands is
combined strictly left-to-right at a single precedence level; in particular
the tokens of `a + b * c` parse as `Mul(Add(a,b), c)`. -/
theorem c1_single_precedence_left_assoc :
    (∀ (file : FileId) (pec : ErrorContext) (fa fp fb fm fc2 : FC)
      (a b c : String),
      (parse_expression file pec [⟨fa, .Identifier a⟩, ⟨fp, .OpPlus⟩,
        ⟨fb, .Identifier b⟩, ⟨fm, .OpStar⟩, ⟨fc2, .Identifier c⟩]).res =
      Except.ok (Expression.InfixOp (fm, .Mul)
        (Expression.InfixOp (fp, .Add)
          (Expression.Variable ⟨fa, a⟩) (Expression.Variable ⟨fb, b⟩))
        (Expression.Variable ⟨fc2, c⟩))) ∧
    (∀ (file : FileId) (pec : ErrorContext) (fa : FC) (a : String)
      (ps : List ((FC × InfixOperator) × (FC × String))),
      (parse_expression file pec
          (⟨fa, .Identifier a⟩ :: chainToks ps)).res =
        Except.ok (chainFold (Expression.Variable ⟨fa, a⟩) ps) ∧
      (parse_expression file pec
          (⟨fa, .Identifier a⟩ :: chainToks ps)).rest = []) := by
  constructor
  · intro file pec fa fp fb fm fc2 a b c
    simp [parse_expression, parse_expression_go, parse_expression_atom,
      postfixLoop, infixOpOf]
  · intro file pec fa a ps
    have hatom : parse_expression_atom file pec
        (⟨fa, .Identifier a⟩ :: chainToks ps) =
        PRes.okRes (Expression.Variable ⟨fa, a⟩) (chainToks ps)
          (Nat.lt_succ_self _) := by
      apply PRes.eqOfParts <;>
        simp [parse_expression_atom, chainToks_postfix]
    constructor <;>
      simp [parse_expression, hatom, parse_expression_go_chain]

/-- Claim C7: the empty token sequence parses successfully into a `File`
whose four sequences are all empty. -/
theorem c7_empty_input_empty_file (file : FileId) :
    parse_file file [] = (Except.ok (File.mk [] [] [] []), []) := by
  simp [parse_file, parseItems]

/-- Claim C7 witness at a concrete file id. -/
theorem c7_empty_input_empty_file_witness :
    parse_file 0 [] = (Except.ok (File.mk [] [] [] []), []) :=
  c7_empty_input_empty_file 0

/-- Claim C3: the success and failure shapes of `parse_binding`.  An integer
literal followed by an identifier yields a quantity-attributed binding; an
identifier, colon, identifier sequence yields a rename binding named by the
second identifier; a lone identifier, or an identifier followed by any token
other than `:`, yields a plain binding; any other leading token yields
`UnexpectedToken` expecting "a quantity or identifier". -/
theorem c3_binding_shapes :
    (∀ (file : FileId) (pec : ErrorContext) (fn fi : FC) (n : Nat) (a : String)
        (rest : List Token),
      (parse_binding file pec
          (⟨fn, .IntegerLiteral n⟩ :: ⟨fi, .Identifier a⟩ :: rest)).res =
        Except.ok (Binding.mk (fn.merge fi) ⟨fi, a⟩ (some (.Quantity fn n))) ∧
      (parse_binding file pec
          (⟨fn, .IntegerLiteral n⟩ :: ⟨fi, .Identifier a⟩ :: rest)).rest = rest) ∧
    (∀ (file : FileId) (pec : ErrorContext) (fs fc2 fl : FC) (src loc : String)
        (rest : List Token),
      (parse_binding file pec (⟨fs, .Identifier src⟩ :: ⟨fc2, .Colon⟩ ::
          ⟨fl, .Identifier loc⟩ :: rest)).res =
        Except.ok (Binding.mk (fs.merge fl) ⟨fl, loc⟩
          (some (.Name ⟨fs, src⟩))) ∧
      (parse_binding file pec (⟨fs, .Identifier src⟩ :: ⟨fc2, .Colon⟩ ::
          ⟨fl, .Identifier loc⟩ :: rest)).rest = rest) ∧
    (∀ (file : FileId) (pec : ErrorContext) (fs : FC) (src : String),
      (parse_binding file pec [⟨fs, .Identifier src⟩]).res =
        Except.ok (Binding.mk fs ⟨fs, src⟩ none) ∧
      (parse_binding file pec [⟨fs, .Identifier src⟩]).rest = []) ∧
    (∀ (file : FileId) (pec : ErrorContext) (fs : FC) (src : String)
        (t2 : Token) (rest : List Token), t2.kind ≠ .Colon →
      (parse_binding file pec (⟨fs, .Identifier src⟩ :: t2 :: rest)).res =
        Except.ok (Binding.mk fs ⟨fs, src⟩ none) ∧
      (parse_binding file pec (⟨fs, .Identifier src⟩ :: t2 :: rest)).rest =
        t2 :: rest) ∧
    (∀ (file : FileId) (pec : ErrorContext) (f : FC) (k : TokenKind)
        (rest : List Token),
      (∀ n, k ≠ .IntegerLiteral n) → (∀ s, k ≠ .Identifier s) →
      (parse_binding file pec (⟨f, k⟩ :: rest)).res =
        Except.error (.UnexpectedToken f
          ((pec.whileParsing "a record binding").expecting
            "a quantity or identifier")) ∧
      (parse_binding file pec (⟨f, k⟩ :: rest)).rest = ⟨f, k⟩ :: rest) := by
  refine ⟨?_, ?_, ?_, ?_, ?_⟩
  · intro file pec fn fi n a rest
    constructor <;> simp
  · intro file pec fs fc2 fl src loc rest
    constructor <;> simp
  · intro file pec fs src
    constructor <;> simp
  · intro file pec fs src t2 rest h
    constructor <;> simp [h]
  · intro file pec f k rest h1 h2
    cases k <;> simp_all

/-- Claim C3 witness: the hypotheses of the plain-binding and failure parts
discharged at concrete inputs. -/
theorem c3_binding_shapes_witness :
    (parse_binding 0 CTX [tok 0 (.Identifier "x"), tok 1 .ParenClose]).res =
      Except.ok (Binding.mk ⟨0, 0, 1⟩ ⟨⟨0, 0, 1⟩, "x"⟩ none) ∧
    (parse_binding 0 CTX [tok 4 .Comma]).res =
      Except.error (.UnexpectedToken ⟨0, 4, 5⟩
        ((CTX.whileParsing "a record binding").expecting
          "a quantity or identifier")) :=
  ⟨(c3_binding_shapes.2.2.2.1 0 CTX ⟨0, 0, 1⟩ "x" (tok 1 .ParenClose) []
      (by decide)).1,
   (c3_binding_shapes.2.2.2.2 0 CTX ⟨0, 4, 5⟩ .Comma []
      (fun n h => nomatch h) (fun s h => nomatch h)).1⟩

/-- Claim C4: in every bracketed separated list a separator immediately
followed by the closing delimiter is accepted and contributes no element
(the loop re-checks for the closing token before parsing another element),
and the tokens of `extern f(a: Int, b: Int,)` parse to an `Extern` with
exactly two parameters, in order. -/
theorem c4_trailing_separator :
    (∀ {T : Type} (file : FileId) (dClose separator : TokenKind)
        (ctx : ErrorContext) (start_fc : FC)
        (f : (l : List Token) → PRes T l.length) (vals : List T)
        (t : Token) (ts : List Token), t.kind = dClose →
      groupedSepLoop file dClose separator ctx start_fc f vals (t :: ts) =
        PRes.okRes (start_fc.merge t.fc, vals) ts (Nat.lt_succ_self _)) ∧
    parse_file 0 [tok 0 .Extern, tok 1 (.Identifier "f"), tok 2 .ParenOpen,
        tok 3 (.Identifier "a"), tok 4 .Colon, tok 5 (.Identifier "Int"),
        tok 6 .Comma, tok 7 (.Identifier "b"), tok 8 .Colon,
        tok 9 (.Identifier "Int"), tok 10 .Comma, tok 11 .ParenClose] =
      (Except.ok (File.mk [] [Extern.mk ⟨0, 0, 12⟩ ⟨⟨0, 1, 2⟩, "f"⟩
        [(⟨⟨0, 3, 4⟩, "a"⟩, .Named ⟨⟨0, 5, 6⟩, "Int"⟩),
         (⟨⟨0, 7, 8⟩, "b"⟩, .Named ⟨⟨0, 9, 10⟩, "Int"⟩)]] [] []), []) := by
  constructor
  · intro T file dClose separator ctx start_fc f vals t ts h
    apply PRes.eqOfParts <;> simp [groupedSepLoop, h]
  · simp [tok, parse_file, parseItems]

/-- Claim C4 witness: the loop hypothesis discharged at a concrete closing
token (with a vacuous element parser). -/
theorem c4_trailing_separator_witness :
    groupedSepLoop 0 TokenKind.ParenClose TokenKind.Comma CTX ⟨0, 0, 1⟩
        (fun l => PRes.err (.UnexpectedEnd 0 CTX) l (Nat.le_refl _))
        ([] : List Unit) [tok 9 .ParenClose] =
      PRes.okRes (FC.merge ⟨0, 0, 1⟩ ⟨0, 9, 10⟩, []) [] (Nat.lt_succ_self _) :=
  c4_trailing_separator.1 0 TokenKind.ParenClose TokenKind.Comma CTX ⟨0, 0, 1⟩
    (fun l => PRes.err (.UnexpectedEnd 0 CTX) l (Nat.le_refl _)) []
    (tok 9 .ParenClose) [] rfl

/-- Claim C8: whenever the next top-level token is none of the keywords
`record`, `extern`, `gene`, `rule`, parsing fails with `UnexpectedToken` at
that (unconsumed) token, with `while_parsing` naming the top-level item and
an expected description naming all four keywords. -/
theorem c8_top_level_dispatch (file : FileId) (t : Token) (ts : List Token)
    (h1 : t.kind ≠ .Record) (h2 : t.kind ≠ .Extern) (h3 : t.kind ≠ .Gene)
    (h4 : t.kind ≠ .Rule) :
    parse_file file (t :: ts) =
      (Except.error (.UnexpectedToken t.fc
        ((CTX.whileParsing "a top level item").expecting
          "`record`, `gene`, `rule` or `extern`")), t :: ts) := by
  obtain ⟨fc, k⟩ := t
  cases k <;> simp_all [parse_file, parseItems]

/-- Claim C8 witness at a concrete non-keyword leading token. -/
theorem c8_top_level_dispatch_witness :
    parse_file 0 [tok 0 .Comma] =
      (Except.error (.UnexpectedToken ⟨0, 0, 1⟩
        ((CTX.whileParsing "a top level item").expecting
          "`record`, `gene`, `rule` or `extern`")), [tok 0 .Comma]) :=
  c8_top_level_dispatch 0 (tok 0 .Comma) [] (by decide) (by decide) (by decide)
    (by decide)

theorem separatedLoop_ne_nil {T : Type} (sep : TokenKind) (fcOf : T → FC)
    (start_fc : FC) (f : (l : List Token) → PRes T l.length) :
    ∀ (n : Nat) (ts : List Token), ts.length ≤ n →
      ∀ (acc : List T) (lastV : T) (r : FC × List T),
        (separatedLoop sep fcOf start_fc f acc lastV ts).res = Except.ok r →
        r.2 ≠ [] := by
  intro n
  induction n with
  | zero =>
    intro ts hts acc lastV r hr
    cases ts with
    | nil =>
      simp only [separatedLoop, QRes.okQ] at hr
      cases hr
      simp
    | cons t ts1 => simp at hts
  | succ n ih =>
    intro ts hts acc lastV r hr
    cases ts with
    | nil =>
      simp only [separatedLoop, QRes.okQ] at hr
      cases hr
      simp
    | cons t ts1 =>
      by_cases h : t.kind = sep
      · simp only [separatedLoop, h, if_pos, QRes.widenQ, PRes.toQ] at hr
        cases hf : (f ts1).res with
        | error e =>
          rw [PRes.bindQ_of_err hf] at hr
          simp at hr
        | ok v =>
          rw [PRes.bindQ_of_ok hf] at hr
          simp only [QRes.afterConsumeQ_res] at hr
          have hlen : (f ts1).rest.length ≤ n := by
            have h1 := (f ts1).hlt v hf
            simp only [List.length_cons] at hts
            omega
          exact ih (f ts1).rest hlen (acc ++ [lastV]) v r hr
      · simp only [separatedLoop, h, if_neg, QRes.okQ, ite_false] at hr
        cases hr
        simp

theorem separated_ne_nil {T : Type} (file : FileId) (sep : TokenKind)
    (fcOf : T → FC) (context : ErrorContext)
    (f : (l : List Token) → PRes T l.length) (ts : List Token)
    (r : FC × List T)
    (hr : (separated file sep fcOf context f ts).res = Except.ok r) :
    r.2 ≠ [] := by
  cases ts with
  | nil => simp [separated] at hr
  | cons t ts1 =>
    simp only [separated] at hr
    cases hf : (f (t :: ts1)).res with
    | error e =>
      rw [PRes.bindQ_of_err hf] at hr
      simp at hr
    | ok v =>
      rw [PRes.bindQ_of_ok hf] at hr
      simp only [QRes.afterConsumeQ_res] at hr
      exact separatedLoop_ne_nil sep fcOf t.fc f
        (f (t :: ts1)).rest.length (f (t :: ts1)).rest (Nat.le_refl _) [] v r hr

/-- Claim C6: `parse_product_list` returns an empty product sequence exactly
when the next token is the `nothing` keyword (which it consumes); otherwise
it parses one-or-more `+`-separated products, so the list is never empty;
and the tokens of `rule (x) -> nothing` yield a `Rule` with one reactant, an
empty product list and no guard. -/
theorem c6_product_list_nothing :
    (∀ (file : FileId) (pec : ErrorContext) (t : Token) (ts : List Token),
      t.kind = .Nothing →
      parse_product_list file pec (t :: ts) =
        PRes.okRes (t.fc, []) ts (Nat.lt_succ_self _)) ∧
    (∀ (file : FileId) (pec : ErrorContext) (ts : List Token)
        (r : FC × List Product),
      (parse_product_list file pec ts).res = Except.ok r → r.2 = [] →
      ∃ t ts1, ts = t :: ts1 ∧ t.kind = .Nothing) ∧
    parse_file 0 [tok 0 .Rule, tok 1 .ParenOpen, tok 2 (.Identifier "x"),
        tok 3 .ParenClose, tok 4 .ArrowR, tok 5 .Nothing] =
      (Except.ok (File.mk [] [] []
        [Rule.mk ⟨0, 0, 6⟩ [Binding.mk ⟨0, 2, 3⟩ ⟨⟨0, 2, 3⟩, "x"⟩ none] []
          none]), []) := by
  refine ⟨?_, ?_, ?_⟩
  · intro file pec t ts h
    apply PRes.eqOfParts <;> simp [parse_product_list, h]
  · intro file pec ts r hr hnil
    cases ts with
    | nil => simp [parse_product_list] at hr
    | cons t ts1 =>
      by_cases h : t.kind = .Nothing
      · exact ⟨t, ts1, rfl, h⟩
      · exfalso
        simp only [parse_product_list, h, ite_false, if_neg] at hr
        exact separated_ne_nil _ _ _ _ _ _ r hr hnil
  · simp [tok, parse_file, parseItems]

/-- Claim C6 witness: the `nothing` branch and the converse direction
discharged at concrete inputs. -/
theorem c6_product_list_nothing_witness :
    parse_product_list 0 CTX [tok 5 .Nothing] =
      PRes.okRes (⟨0, 5, 6⟩, []) [] (Nat.lt_succ_self _) ∧
    (∃ t ts1, [tok 5 .Nothing] = t :: ts1 ∧ t.kind = .Nothing) :=
  ⟨c6_product_list_nothing.1 0 CTX (tok 5 .Nothing) [] rfl,
   c6_product_list_nothing.2.1 0 CTX [tok 5 .Nothing] (⟨0, 5, 6⟩, [])
     (by simp [parse_product_list, tok]) rfl⟩

/-- Claim C2 counterexample: an `Express` gene-statement stores only the
`express` keyword's span, not the merge of the spans of all tokens consumed
while parsing it: for `express x` with the keyword at offsets 0..7 and the
product identifier at 8..9, the stored span is 0..7 while the merge of the
consumed tokens' spans is 0..9. -/
theorem c2_span_counterexample :
    (parse_gene_statement 0 CTX
        [⟨⟨0, 0, 7⟩, .Express⟩, ⟨⟨0, 8, 9⟩, .Identifier "x"⟩]).res =
      Except.ok (GeneStatement.Express ⟨0, 0, 7⟩
        (Product.mk ⟨0, 8, 9⟩ none ⟨⟨0, 8, 9⟩, "x"⟩ [])) ∧
    FC.merge ⟨0, 0, 7⟩ ⟨0, 8, 9⟩ ≠ ⟨0, 0, 7⟩ := by
  constructor
  · simp
  · decide

/-- Claim C2 (amended): node spans are the merge of all consumed tokens'
spans for the bracketed-item constructs — shown here for records with and
without a field list, whose spans cover keyword, name and parentheses — but
three constructs store narrower spans: an `Express` statement stores only
the `express` keyword's span (not covering its product), a `Concentration`
expression stores only the inner type identifier (excluding `[` and `]`),
and a parenthesized expression is returned as-is (parentheses transparent,
contributing no span). -/
theorem c2_spans_amended :
    (∀ (f0 f1 : FC) (nm : String) (file : FileId),
      parse_file file [⟨f0, .Record⟩, ⟨f1, .Identifier nm⟩] =
        (Except.ok (File.mk [Record.mk (f0.merge f1) ⟨f1, nm⟩ []] [] [] []),
          [])) ∧
    (∀ (f0 f1 f2 f3 : FC) (nm : String) (file : FileId),
      parse_file file [⟨f0, .Record⟩, ⟨f1, .Identifier nm⟩, ⟨f2, .ParenOpen⟩,
          ⟨f3, .ParenClose⟩] =
        (Except.ok (File.mk [Record.mk (f0.merge (f2.merge f3)) ⟨f1, nm⟩ []]
          [] [] []), [])) ∧
    (∀ (fe fx : FC) (x : String) (file : FileId) (pec : ErrorContext),
      (parse_gene_statement file pec [⟨fe, .Express⟩, ⟨fx, .Identifier x⟩]).res =
        Except.ok (GeneStatement.Express fe
          (Product.mk fx none ⟨fx, x⟩ []))) ∧
    (∀ (f1 f2 f3 : FC) (T : String) (file : FileId) (pec : ErrorContext),
      (parse_expression_atom file pec [⟨f1, .BracketOpen⟩, ⟨f2, .Identifier T⟩,
          ⟨f3, .BracketClose⟩]).res =
        Except.ok (Expression.Concentration ⟨f2, T⟩) ∧
      (Expression.Concentration (Identifier.mk f2 T)).fc = f2) ∧
    (∀ (f1 f2 f3 : FC) (x : String) (file : FileId) (pec : ErrorContext),
      (parse_expression_atom file pec [⟨f1, .ParenOpen⟩, ⟨f2, .Identifier x⟩,
          ⟨f3, .ParenClose⟩]).res =
        Except.ok (Expression.Variable ⟨f2, x⟩) ∧
      (Expression.Variable (Identifier.mk f2 x)).fc = f2) := by
  refine ⟨?_, ?_, ?_, ?_, ?_⟩
  · intro f0 f1 nm file
    simp [parse_file, parseItems]
  · intro f0 f1 f2 f3 nm file
    simp [parse_file, parseItems]
  · intro fe fx x file pec
    simp
  · intro f1 f2 f3 T file pec
    constructor
    · simp
    · rfl
  · intro f1 f2 f3 x file pec
    constructor
    · simp [parse_expression, parse_expression_go]
    · rfl

/-- Claim C10: for every finite token sequence the parser terminates with a
`File` or an error (the embedding is a total function, accepted by
well-founded recursion on the number of remaining tokens), and every
continuing sub-parse consumes at least one token on success — the progress
property that justifies every loop. -/
theorem c10_parser_terminates :
    (∀ (file : FileId) (ts : List Token),
      (∃ f, (parse_file file ts).1 = Except.ok f) ∨
      (∃ e, (parse_file file ts).1 = Except.error e)) ∧
    (∀ (file : FileId) (pec : ErrorContext) (ts : List Token) (b : Binding),
      (parse_binding file pec ts).res = Except.ok b →
      (parse_binding file pec ts).rest.length < ts.length) ∧
    (∀ (file : FileId) (pec : ErrorContext) (ts : List Token) (e : Expression),
      (parse_expression file pec ts).res = Except.ok e →
      (parse_expression file pec ts).rest.length < ts.length) ∧
    (∀ (file : FileId) (pec : ErrorContext) (ts : List Token)
        (g : GeneStatement),
      (parse_gene_statement file pec ts).res = Except.ok g →
      (parse_gene_statement file pec ts).rest.length < ts.length) ∧
    (∀ (file : FileId) (pec : ErrorContext) (ts : List Token) (p : Product),
      (parse_product file pec ts).res = Except.ok p →
      (parse_product file pec ts).rest.length < ts.length) := by
  refine ⟨?_, ?_, ?_, ?_, ?_⟩
  · intro file ts
    cases h : (parse_file file ts).1 with
    | ok f => exact Or.inl ⟨f, rfl⟩
    | error e => exact Or.inr ⟨e, rfl⟩
  · intro file pec ts b h
    exact (parse_binding file pec ts).hlt b h
  · intro file pec ts e h
    exact (parse_expression file pec ts).hlt e h
  · intro file pec ts g h
    exact (parse_gene_statement file pec ts).hlt g h
  · intro file pec ts p h
    exact (parse_product file pec ts).hlt p h

/-- Claim C10 witness: the progress hypotheses discharged at a concrete
successful sub-parse. -/
theorem c10_parser_terminates_witness :
    (parse_binding 0 CTX [tok 0 (.Identifier "x")]).rest.length < 1 :=
  c10_parser_terminates.2.1 0 CTX [tok 0 (.Identifier "x")]
    (Binding.mk ⟨0, 0, 1⟩ ⟨⟨0, 0, 1⟩, "x"⟩ none) (by simp [tok])

/-- Cursor discipline for a reported error: an `UnexpectedToken` error
always carries the span of the token still pending at the head of the
remaining sequence (nothing was consumed past it), and an `UnexpectedEnd`
error is only reported with the sequence exhausted, carrying the parser's
file id. -/
def ErrOkE (file : FileId) : Error → List Token → Prop
  | .UnexpectedToken fc _, rest => ∃ t l, rest = t :: l ∧ t.fc = fc
  | .UnexpectedEnd fid _, rest => rest = [] ∧ fid = file

/-- A parse outcome respects the cursor discipline of `ErrOkE` whenever it
is an error. -/
def ErrOk {α : Type} (file : FileId) (res : Except Error α)
    (rest : List Token) : Prop :=
  ∀ e, res = Except.error e → ErrOkE file e rest

theorem errOk_ok {α : Type} (file : FileId) (a : α) (rest : List Token) :
    ErrOk file (Except.ok a) rest := by
  intro e h
  simp at h

theorem errOk_error_intro {α : Type} {file : FileId} {e : Error}
    {rest : List Token} (h : ErrOkE file e rest) :
    ErrOk (α := α) file (Except.error e) rest := by
  intro e2 h2
  cases h2
  exact h

theorem errOk_error_elim {α : Type} {file : FileId} {e : Error}
    {rest : List Token} (h : ErrOk (α := α) file (Except.error e) rest) :
    ErrOkE file e rest :=
  h e rfl

theorem errOk_ut {α : Type} (file : FileId) (ctx : ErrorContext) (t : Token)
    (l : List Token) :
    ErrOk (α := α) file (Except.error (.UnexpectedToken t.fc ctx)) (t :: l) :=
  errOk_error_intro ⟨t, l, rfl, rfl⟩

theorem errOk_ue {α : Type} (file : FileId) (ctx : ErrorContext) :
    ErrOk (α := α) file (Except.error (.UnexpectedEnd file ctx)) [] :=
  errOk_error_intro ⟨rfl, rfl⟩

theorem errOk_bindQ {α β : Type} {n : Nat} {file : FileId} {r : PRes α n}
    {f : (a : α) → (l : List Token) → l.length < n → QRes β l.length}
    (h1 : ErrOk file r.res r.rest)
    (h2 : ∀ a l hl, ErrOk file (f a l hl).res (f a l hl).rest) :
    ErrOk file (r.bindQ f).res (r.bindQ f).rest := by
  cases hr : r.res with
  | ok a =>
    rw [PRes.bindQ_of_ok hr]
    simpa using h2 a r.rest (r.hlt a hr)
  | error e =>
    rw [PRes.bindQ_of_err hr]
    rw [hr] at h1
    exact errOk_error_intro (errOk_error_elim h1)

theorem errOk_bind {α β : Type} {n : Nat} {file : FileId} {r : PRes α n}
    {f : (a : α) → (l : List Token) → l.length < n → PRes β l.length}
    (h1 : ErrOk file r.res r.rest)
    (h2 : ∀ a l hl, ErrOk file (f a l hl).res (f a l hl).rest) :
    ErrOk file (r.bind f).res (r.bind f).rest := by
  cases hr : r.res with
  | ok a =>
    rw [PRes.bind_of_ok hr]
    simpa using h2 a r.rest (r.hlt a hr)
  | error e =>
    rw [PRes.bind_of_err hr]
    rw [hr] at h1
    exact errOk_error_intro (errOk_error_elim h1)

theorem errOk_map {α β : Type} {n : Nat} {file : FileId} (g : α → β)
    (r : PRes α n) (h : ErrOk file r.res r.rest) :
    ErrOk file (r.map g).res (r.map g).rest := by
  rw [PRes.map_res, PRes.map_rest]
  cases hr : r.res with
  | ok a => exact errOk_ok file (g a) r.rest
  | error e =>
    rw [hr] at h
    exact errOk_error_intro (errOk_error_elim h)

theorem errOk_expect (file : FileId) (ctx : ErrorContext) (f : Token → Bool)
    (ts : List Token) :
    ErrOk file (expect file ctx f ts).res (expect file ctx f ts).rest := by
  cases ts with
  | nil => exact errOk_ue file ctx
  | cons t ts1 =>
    by_cases h : f t
    · simp only [expect]
      rw [if_pos h]
      exact errOk_ok file () ts1
    · simp only [expect]
      rw [if_neg h]
      exact errOk_ut file ctx t ts1

theorem errOk_expect_tok_and_fc {α : Type} (file : FileId)
    (ctx : ErrorContext) (f : Token → Option α) (ts : List Token) :
    ErrOk file (expect_tok_and_fc file ctx f ts).res
      (expect_tok_and_fc file ctx f ts).rest := by
  cases ts with
  | nil => exact errOk_ue file ctx
  | cons t ts1 =>
    cases hft : f t with
    | some a =>
      simp only [expect_tok_and_fc, hft]
      exact errOk_ok file (t.fc, a) ts1
    | none =>
      simp only [expect_tok_and_fc, hft]
      exact errOk_ut file ctx t ts1

theorem errOk_parse_identifier (file : FileId) (pec : ErrorContext)
    (ts : List Token) :
    ErrOk file (parse_identifier file pec ts).res
      (parse_identifier file pec ts).rest := by
  simp only [parse_identifier]
  exact errOk_map _ _ (errOk_expect_tok_and_fc file _ _ ts)

theorem errOk_parse_type (file : FileId) (pec : ErrorContext)
    (ts : List Token) :
    ErrOk file (parse_type file pec ts).res (parse_type file pec ts).rest := by
  simp only [parse_type]
  exact errOk_map _ _ (errOk_parse_identifier file _ ts)

theorem errOk_postfixLoop (file : FileId) :
    ∀ (n : Nat) (ts : List Token), ts.length ≤ n →
      ∀ (pec : ErrorContext) (e : Expression),
        ErrOk file (postfixLoop file pec e ts).res
          (postfixLoop file pec e ts).rest := by
  intro n
  induction n with
  | zero =>
    intro ts hts pec e
    cases ts with
    | nil =>
      simp only [postfixLoop]
      exact errOk_ok file e []
    | cons t ts1 => simp at hts
  | succ n ih =>
    intro ts hts pec e
    cases ts with
    | nil =>
      simp only [postfixLoop]
      exact errOk_ok file e []
    | cons t ts1 =>
      by_cases h : t.kind = .Dot
      · simp only [postfixLoop]
        rw [if_pos h]
        simp only [PRes.toQ_res, PRes.toQ_rest, QRes.widenQ_res, QRes.widenQ_rest]
        apply errOk_bindQ (errOk_parse_identifier file _ ts1)
        intro a l hl
        apply ih l _ pec (Expression.FieldAccess e a)
        simp only [List.length_cons] at hts
        omega
      · simp only [postfixLoop]
        rw [if_neg h]
        exact errOk_ok file e (t :: ts1)

theorem errOk_expression (file : FileId) :
    ∀ (n : Nat) (ts : List Token), ts.length ≤ n →
      (∀ pec, ErrOk file (parse_expression_atom file pec ts).res
        (parse_expression_atom file pec ts).rest) ∧
      (∀ pec e, ErrOk file (parse_expression_go file pec e ts).res
        (parse_expression_go file pec e ts).rest) ∧
      (∀ pec, ErrOk file (parse_expression file pec ts).res
        (parse_expression file pec ts).rest) := by
  intro n
  induction n with
  | zero =>
    intro ts hts
    cases ts with
    | cons t ts1 => simp at hts
    | nil =>
      have hatom : ∀ pec, ErrOk file (parse_expression_atom file pec []).res
          (parse_expression_atom file pec []).rest := by
        intro pec
        simp only [parse_expression_atom]
        exact errOk_ue file _
      refine ⟨hatom, ?_, ?_⟩
      · intro pec e
        simp only [parse_expression_go]
        exact errOk_ok file e []
      · intro pec
        simp only [parse_expression]
        apply errOk_bindQ (hatom pec)
        intro a l hl
        exact absurd hl (Nat.not_lt_zero _)
  | succ n ih =>
    intro ts hts
    have hatom : ∀ pec, ErrOk file (parse_expression_atom file pec ts).res
        (parse_expression_atom file pec ts).rest := by
      intro pec
      cases ts with
      | nil =>
        simp only [parse_expression_atom]
        exact errOk_ue file _
      | cons t ts1 =>
        have hts1 : ts1.length ≤ n := by
          simp only [List.length_cons] at hts
          omega
        simp only [parse_expression_atom]
        apply errOk_bindQ
        · split
          · exact errOk_ok _ _ _
          · exact errOk_ok _ _ _
          · exact errOk_ok _ _ _
          · simp only [PRes.afterConsume_res, PRes.afterConsume_rest]
            apply errOk_bindQ (errOk_parse_identifier _ _ _)
            intro a l hl
            simp only [PRes.toQ_res, PRes.toQ_rest]
            exact errOk_map _ _ (errOk_expect _ _ _ _)
          · simp only [PRes.afterConsume_res, PRes.afterConsume_rest]
            apply errOk_bindQ ((ih ts1 hts1).2.2 pec)
            intro a l hl
            simp only [PRes.toQ_res, PRes.toQ_rest]
            exact errOk_map _ _ (errOk_expect _ _ _ _)
          · simp only [PRes.afterConsume_res, PRes.afterConsume_rest]
            exact errOk_map _ _ ((ih ts1 hts1).1 pec)
          · exact errOk_ut _ _ _ _
        · intro a l hl
          exact errOk_postfixLoop file l.length l (Nat.le_refl _) pec a
    refine ⟨hatom, ?_, ?_⟩
    · intro pec e
      cases ts with
      | nil =>
        simp only [parse_expression_go]
        exact errOk_ok file e []
      | cons t ts1 =>
        have hts1 : ts1.length ≤ n := by
          simp only [List.length_cons] at hts
          omega
        simp only [parse_expression_go]
        split
        · exact errOk_ok _ _ _
        · simp only [PRes.toQ_res, PRes.toQ_rest, QRes.widenQ_res,
            QRes.widenQ_rest]
          apply errOk_bindQ ((ih ts1 hts1).1 pec)
          intro a l hl
          have hl2 : l.length ≤ n := by omega
          exact (ih l hl2).2.1 pec _
    · intro pec
      simp only [parse_expression]
      apply errOk_bindQ (hatom pec)
      intro a l hl
      have hl2 : l.length ≤ n := by omega
      exact (ih l hl2).2.1 pec a

theorem errOk_parse_expression (file : FileId) (pec : ErrorContext)
    (ts : List Token) :
    ErrOk file (parse_expression file pec ts).res
      (parse_expression file pec ts).rest :=
  (errOk_expression file ts.length ts (Nat.le_refl _)).2.2 pec

theorem errOk_parse_expression_atom (file : FileId) (pec : ErrorContext)
    (ts : List Token) :
    ErrOk file (parse_expression_atom file pec ts).res
      (parse_expression_atom file pec ts).rest :=
  (errOk_expression file ts.length ts (Nat.le_refl _)).1 pec

theorem errOk_groupedLoop {T : Type} (file : FileId) (close : TokenKind)
    (start_fc : FC) (f : (l : List Token) → PRes T l.length)
    (hf : ∀ l, ErrOk file (f l).res (f l).rest) :
    ∀ (n : Nat) (ts : List Token), ts.length ≤ n → ∀ (vals : List T),
      ErrOk file (groupedLoop close start_fc f vals ts).res
        (groupedLoop close start_fc f vals ts).rest := by
  intro n
  induction n with
  | zero =>
    intro ts hts vals
    cases ts with
    | cons t ts1 => simp at hts
    | nil =>
      simp only [groupedLoop]
      apply errOk_bind (hf [])
      intro a l hl
      exact absurd hl (Nat.not_lt_zero _)
  | succ n ih =>
    intro ts hts vals
    cases ts with
    | nil =>
      simp only [groupedLoop]
      apply errOk_bind (hf [])
      intro a l hl
      exact absurd hl (Nat.not_lt_zero _)
    | cons t ts1 =>
      by_cases h : t.kind = close
      · simp only [groupedLoop]
        rw [if_pos h]
        exact errOk_ok _ _ _
      · simp only [groupedLoop]
        rw [if_neg h]
        apply errOk_bind (hf (t :: ts1))
        intro a l hl
        apply ih l _ (vals ++ [a])
        simp only [List.length_cons] at hl hts
        omega

theorem errOk_grouped {T : Type} (file : FileId) (dOpen dClose : TokenKind)
    (ctx : ErrorContext) (f : (l : List Token) → PRes T l.length)
    (hf : ∀ l, ErrOk file (f l).res (f l).rest) (ts : List Token) :
    ErrOk file (grouped file dOpen dClose ctx f ts).res
      (grouped file dOpen dClose ctx f ts).rest := by
  simp only [grouped]
  apply errOk_bindQ (errOk_expect_tok_and_fc _ _ _ _)
  intro a l hl
  simp only [PRes.toQ_res, PRes.toQ_rest]
  exact errOk_groupedLoop file dClose a.1 f hf l.length l (Nat.le_refl _) []

theorem errOk_groupedSepLoop {T : Type} (file : FileId)
    (dClose separator : TokenKind) (sctx : ErrorContext) (start_fc : FC)
    (f : (l : List Token) → PRes T l.length)
    (hf : ∀ l, ErrOk file (f l).res (f l).rest) :
    ∀ (n : Nat) (ts : List Token), ts.length ≤ n → ∀ (vals : List T),
      ErrOk file (groupedSepLoop file dClose separator sctx start_fc f vals
        ts).res
        (groupedSepLoop file dClose separator sctx start_fc f vals ts).rest := by
  intro n
  induction n with
  | zero =>
    intro ts hts vals
    cases ts with
    | cons t ts1 => simp at hts
    | nil =>
      simp only [groupedSepLoop]
      apply errOk_bind (hf [])
      intro a l hl
      exact absurd hl (Nat.not_lt_zero _)
  | succ n ih =>
    intro ts hts vals
    cases ts with
    | nil =>
      simp only [groupedSepLoop]
      apply errOk_bind (hf [])
      intro a l hl
      exact absurd hl (Nat.not_lt_zero _)
    | cons t ts1 =>
      by_cases h : t.kind = dClose
      · simp only [groupedSepLoop]
        rw [if_pos h]
        exact errOk_ok _ _ _
      · simp only [groupedSepLoop]
        rw [if_neg h]
        apply errOk_bindQ (hf (t :: ts1))
        intro a l hl
        simp only [PRes.toQ_res, PRes.toQ_rest]
        apply errOk_bindQ (errOk_expect_tok_and_fc _ _ _ _)
        intro b l2 hl2
        split
        · exact errOk_ok _ _ _
        · simp only [PRes.toQ_res, PRes.toQ_rest]
          apply ih l2 _ (vals ++ [a])
          simp only [List.length_cons] at hl hts
          omega

theorem errOk_grouped_separated {T : Type} (file : FileId)
    (dOpen dClose : TokenKind) (ctx : ErrorContext) (separator : TokenKind)
    (sctx : ErrorContext) (f : (l : List Token) → PRes T l.length)
    (hf : ∀ l, ErrOk file (f l).res (f l).rest) (ts : List Token) :
    ErrOk file (grouped_separated file dOpen dClose ctx separator sctx f ts).res
      (grouped_separated file dOpen dClose ctx separator sctx f ts).rest := by
  simp only [grouped_separated]
  apply errOk_bindQ (errOk_expect_tok_and_fc _ _ _ _)
  intro a l hl
  simp only [PRes.toQ_res, PRes.toQ_rest]
  exact errOk_groupedSepLoop file dClose separator sctx a.1 f hf l.length l
    (Nat.le_refl _) []

theorem errOk_separatedLoop {T : Type} (file : FileId) (sep : TokenKind)
    (fcOf : T → FC) (start_fc : FC)
    (f : (l : List Token) → PRes T l.length)
    (hf : ∀ l, ErrOk file (f l).res (f l).rest) :
    ∀ (n : Nat) (ts : List Token), ts.length ≤ n →
      ∀ (acc : List T) (lastV : T),
      ErrOk file (separatedLoop sep fcOf start_fc f acc lastV ts).res
        (separatedLoop sep fcOf start_fc f acc lastV ts).rest := by
  intro n
  induction n with
  | zero =>
    intro ts hts acc lastV
    cases ts with
    | cons t ts1 => simp at hts
    | nil =>
      simp only [separatedLoop]
      exact errOk_ok _ _ _
  | succ n ih =>
    intro ts hts acc lastV
    cases ts with
    | nil =>
      simp only [separatedLoop]
      exact errOk_ok _ _ _
    | cons t ts1 =>
      by_cases h : t.kind = sep
      · simp only [separatedLoop]
        rw [if_pos h]
        simp only [PRes.toQ_res, PRes.toQ_rest, QRes.widenQ_res,
          QRes.widenQ_rest]
        apply errOk_bindQ (hf ts1)
        intro a l hl
        apply ih l _ (acc ++ [lastV]) a
        simp only [List.length_cons] at hts
        omega
      · simp only [separatedLoop]
        rw [if_neg h]
        exact errOk_ok _ _ _

theorem errOk_separated {T : Type} (file : FileId) (sep : TokenKind)
    (fcOf : T → FC) (context : ErrorContext)
    (f : (l : List Token) → PRes T l.length)
    (hf : ∀ l, ErrOk file (f l).res (f l).rest) (ts : List Token) :
    ErrOk file (separated file sep fcOf context f ts).res
      (separated file sep fcOf context f ts).rest := by
  cases ts with
  | nil => exact errOk_ue file context
  | cons t ts1 =>
    simp only [separated]
    apply errOk_bindQ (hf (t :: ts1))
    intro a l hl
    exact errOk_separatedLoop file sep fcOf t.fc f hf l.length l
      (Nat.le_refl _) [] a

theorem errOk_parse_binding (file : FileId) (pec : ErrorContext)
    (ts : List Token) :
    ErrOk file (parse_binding file pec ts).res (parse_binding file pec ts).rest := by
  cases ts with
  | nil => exact errOk_ue file _
  | cons t ts1 =>
    simp only [parse_binding]
    split
    · simp only [PRes.afterConsume_res, PRes.afterConsume_rest]
      exact errOk_map _ _ (errOk_parse_identifier _ _ _)
    · apply errOk_bindQ (errOk_parse_identifier _ _ _)
      intro a l hl
      split
      · split
        · simp only [PRes.toQ_res, PRes.toQ_rest, PRes.afterConsume_res,
            PRes.afterConsume_rest]
          exact errOk_map _ _ (errOk_parse_identifier _ _ _)
        · exact errOk_ok _ _ _
      · exact errOk_ok _ _ _
    · exact errOk_ut _ _ _ _

theorem errOk_productFieldParser (file : FileId) (ec : ErrorContext)
    (l : List Token) :
    ErrOk file (productFieldParser file ec l).res
      (productFieldParser file ec l).rest := by
  simp only [productFieldParser]
  apply errOk_bindQ (errOk_parse_identifier _ _ _)
  intro a l2 hl2
  simp only [PRes.toQ_res, PRes.toQ_rest]
  apply errOk_bindQ (errOk_expect_tok_and_fc _ _ _ _)
  intro b l3 hl3
  simp only [PRes.toQ_res, PRes.toQ_rest]
  exact errOk_map _ _ (errOk_parse_expression _ _ _)

theorem errOk_callArgParser (file : FileId) (ec : ErrorContext)
    (l : List Token) :
    ErrOk file (callArgParser file ec l).res (callArgParser file ec l).rest := by
  simp only [callArgParser]
  apply errOk_bindQ (errOk_parse_identifier _ _ _)
  intro a l2 hl2
  simp only [PRes.toQ_res, PRes.toQ_rest]
  apply errOk_bindQ (errOk_expect_tok_and_fc _ _ _ _)
  intro b l3 hl3
  simp only [PRes.toQ_res, PRes.toQ_rest]
  exact errOk_map _ _ (errOk_parse_expression _ _ _)

theorem errOk_recordFieldParser (file : FileId) (ec : ErrorContext)
    (l : List Token) :
    ErrOk file (recordFieldParser file ec l).res
      (recordFieldParser file ec l).rest := by
  simp only [recordFieldParser]
  apply errOk_bindQ (errOk_parse_identifier _ _ _)
  intro a l2 hl2
  simp only [PRes.toQ_res, PRes.toQ_rest]
  apply errOk_bindQ (errOk_expect_tok_and_fc _ _ _ _)
  intro b l3 hl3
  simp only [PRes.toQ_res, PRes.toQ_rest]
  exact errOk_map _ _ (errOk_parse_type _ _ _)

theorem errOk_externParamParser (file : FileId) (ec : ErrorContext)
    (l : List Token) :
    ErrOk file (externParamParser file ec l).res
      (externParamParser file ec l).rest := by
  simp only [externParamParser]
  apply errOk_bindQ (errOk_parse_identifier _ _ _)
  intro a l2 hl2
  simp only [PRes.toQ_res, PRes.toQ_rest]
  apply errOk_bindQ (errOk_expect_tok_and_fc _ _ _ _)
  intro b l3 hl3
  simp only [PRes.toQ_res, PRes.toQ_rest]
  exact errOk_map _ _ (errOk_parse_type _ _ _)

theorem errOk_parse_productAfterQty (file : FileId) (pec : ErrorContext)
    (quantity : Option (FC × Nat)) (ts : List Token) :
    ErrOk file (parse_productAfterQty file pec quantity ts).res
      (parse_productAfterQty file pec quantity ts).rest := by
  simp only [parse_productAfterQty]
  apply errOk_bindQ (errOk_parse_identifier _ _ _)
  intro a l hl
  split
  · split
    · simp only [PRes.toQ_res, PRes.toQ_rest]
      exact errOk_map _ _
        (errOk_grouped_separated _ _ _ _ _ _ _
          (errOk_productFieldParser file _) _)
    · exact errOk_ok _ _ _
  · exact errOk_ok _ _ _

theorem errOk_parse_product (file : FileId) (pec : ErrorContext)
    (ts : List Token) :
    ErrOk file (parse_product file pec ts).res (parse_product file pec ts).rest := by
  cases ts with
  | nil => exact errOk_parse_productAfterQty file pec none []
  | cons t ts1 =>
    simp only [parse_product]
    split
    · simp only [PRes.afterConsume_res, PRes.afterConsume_rest]
      exact errOk_parse_productAfterQty file pec _ ts1
    · exact errOk_parse_productAfterQty file pec none (t :: ts1)

theorem errOk_parse_product_list (file : FileId) (pec : ErrorContext)
    (ts : List Token) :
    ErrOk file (parse_product_list file pec ts).res
      (parse_product_list file pec ts).rest := by
  cases ts with
  | nil => exact errOk_ue file _
  | cons t ts1 =>
    simp only [parse_product_list]
    split
    · exact errOk_ok _ _ _
    · exact errOk_separated file _ _ _ _
        (fun l => errOk_parse_product file _ l) (t :: ts1)

theorem errOk_parse_gene_statement (file : FileId) (pec : ErrorContext)
    (ts : List Token) :
    ErrOk file (parse_gene_statement file pec ts).res
      (parse_gene_statement file pec ts).rest := by
  cases ts with
  | nil => exact errOk_ue file _
  | cons t ts1 =>
    simp only [parse_gene_statement]
    split
    · simp only [PRes.afterConsume_res, PRes.afterConsume_rest]
      apply errOk_bindQ (errOk_parse_identifier _ _ _)
      intro a l hl
      simp only [PRes.toQ_res, PRes.toQ_rest]
      exact errOk_map _ _
        (errOk_grouped_separated _ _ _ _ _ _ _ (errOk_callArgParser file _) _)
    · simp only [PRes.afterConsume_res, PRes.afterConsume_rest]
      exact errOk_map _ _ (errOk_parse_product _ _ _)
    · exact errOk_ut _ _ _ _

theorem errOk_parse_record_item (file : FileId) (start_fc : FC)
    (ts : List Token) :
    ErrOk file (parse_record_item file start_fc ts).res
      (parse_record_item file start_fc ts).rest := by
  simp only [parse_record_item]
  apply errOk_bindQ (errOk_parse_identifier _ _ _)
  intro a l hl
  split
  · split
    · simp only [PRes.toQ_res, PRes.toQ_rest]
      exact errOk_map _ _
        (errOk_grouped_separated _ _ _ _ _ _ _
          (errOk_recordFieldParser file _) _)
    · exact errOk_ok _ _ _
  · exact errOk_ok _ _ _

theorem errOk_parse_extern_item (file : FileId) (start_fc : FC)
    (ts : List Token) :
    ErrOk file (parse_extern_item file start_fc ts).res
      (parse_extern_item file start_fc ts).rest := by
  simp only [parse_extern_item]
  apply errOk_bindQ (errOk_parse_identifier _ _ _)
  intro a l hl
  simp only [PRes.toQ_res, PRes.toQ_rest]
  exact errOk_map _ _
    (errOk_grouped_separated _ _ _ _ _ _ _ (errOk_externParamParser file _) _)

theorem errOk_geneBody (file : FileId) (ec : ErrorContext) (start_fc : FC)
    (factors : List Binding) (whenOpt : Option Expression) (ts : List Token) :
    ErrOk file (geneBody file ec start_fc factors whenOpt ts).res
      (geneBody file ec start_fc factors whenOpt ts).rest := by
  simp only [geneBody]
  exact errOk_map _ _
    (errOk_grouped _ _ _ _ _ (fun l => errOk_parse_gene_statement file _ l) _)

theorem errOk_parse_gene_item (file : FileId) (start_fc : FC)
    (ts : List Token) :
    ErrOk file (parse_gene_item file start_fc ts).res
      (parse_gene_item file start_fc ts).rest := by
  simp only [parse_gene_item]
  apply errOk_bindQ
    (errOk_grouped_separated _ _ _ _ _ _ _
      (fun l => errOk_parse_binding file _ l) _)
  intro a l hl
  split
  · exact errOk_ue file _
  · split
    · simp only [PRes.toQ_res, PRes.toQ_rest, PRes.afterConsume_res,
        PRes.afterConsume_rest]
      apply errOk_bindQ (errOk_parse_expression _ _ _)
      intro b l2 hl2
      simp only [PRes.toQ_res, PRes.toQ_rest]
      exact errOk_geneBody file _ start_fc a.2 (some b) l2
    · simp only [PRes.toQ_res, PRes.toQ_rest]
      exact errOk_geneBody file _ start_fc a.2 none _

theorem errOk_parse_rule_item (file : FileId) (start_fc : FC)
    (ts : List Token) :
    ErrOk file (parse_rule_item file start_fc ts).res
      (parse_rule_item file start_fc ts).rest := by
  simp only [parse_rule_item]
  apply errOk_bindQ
    (errOk_grouped_separated _ _ _ _ _ _ _
      (fun l => errOk_parse_binding file _ l) _)
  intro a l hl
  simp only [PRes.toQ_res, PRes.toQ_rest]
  apply errOk_bindQ (errOk_expect _ _ _ _)
  intro b l2 hl2
  simp only [PRes.toQ_res, PRes.toQ_rest]
  apply errOk_bindQ (errOk_parse_product_list _ _ _)
  intro c l3 hl3
  split
  · split
    · simp only [PRes.toQ_res, PRes.toQ_rest, PRes.afterConsume_res,
        PRes.afterConsume_rest]
      exact errOk_map _ _ (errOk_parse_expression _ _ _)
    · exact errOk_ok _ _ _
  · exact errOk_ok _ _ _

theorem errOk_parseItems (file : FileId) :
    ∀ (n : Nat) (ts : List Token), ts.length ≤ n → ∀ (acc : File),
      ErrOk file (parseItems file acc ts).1 (parseItems file acc ts).2 := by
  intro n
  induction n with
  | zero =>
    intro ts hts acc
    cases ts with
    | cons t ts1 => simp at hts
    | nil =>
      simp only [parseItems]
      exact errOk_ok _ _ _
  | succ n ih =>
    intro ts hts acc
    cases ts with
    | nil =>
      simp only [parseItems]
      exact errOk_ok _ _ _
    | cons t ts1 =>
      have hts1 : ts1.length ≤ n := by
        simp only [List.length_cons] at hts
        omega
      simp only [parseItems]
      split
      · split
        · apply ih _ _ _
          have := (parse_record_item file t.fc ts1).hle
          omega
        · rename_i e heq
          exact errOk_error_intro ((errOk_parse_record_item file t.fc ts1) e heq)
      · split
        · apply ih _ _ _
          have := (parse_extern_item file t.fc ts1).hle
          omega
        · rename_i e heq
          exact errOk_error_intro ((errOk_parse_extern_item file t.fc ts1) e heq)
      · split
        · apply ih _ _ _
          have := (parse_gene_item file t.fc ts1).hle
          omega
        · rename_i e heq
          exact errOk_error_intro ((errOk_parse_gene_item file t.fc ts1) e heq)
      · split
        · apply ih _ _ _
          have := (parse_rule_item file t.fc ts1).hle
          omega
        · rename_i e heq
          exact errOk_error_intro ((errOk_parse_rule_item file t.fc ts1) e heq)
      · exact errOk_ut _ _ _ _

theorem errOk_parse_file (file : FileId) (ts : List Token) :
    ErrOk file (parse_file file ts).1 (parse_file file ts).2 := by
  simp only [parse_file]
  exact errOk_parseItems file ts.length ts (Nat.le_refl _) {}

/-- Claim C9: whenever a parse returns an `UnexpectedToken(location, ctx)`
error, the token at that location has not been consumed — it is still the
cursor's next pending token (the head of the remaining sequence) — both for
the top-level `parse_file` and for the sub-parsers. -/
theorem c9_unexpected_token_not_consumed :
    (∀ (file : FileId) (ts : List Token) (fc : FC) (ctx : ErrorContext),
      (parse_file file ts).1 = Except.error (.UnexpectedToken fc ctx) →
      ∃ t l, (parse_file file ts).2 = t :: l ∧ t.fc = fc) ∧
    (∀ (file : FileId) (pec : ErrorContext) (ts : List Token) (fc : FC)
        (ctx : ErrorContext),
      (parse_expression file pec ts).res =
        Except.error (.UnexpectedToken fc ctx) →
      ∃ t l, (parse_expression file pec ts).rest = t :: l ∧ t.fc = fc) ∧
    (∀ (file : FileId) (pec : ErrorContext) (ts : List Token) (fc : FC)
        (ctx : ErrorContext),
      (parse_binding file pec ts).res =
        Except.error (.UnexpectedToken fc ctx) →
      ∃ t l, (parse_binding file pec ts).rest = t :: l ∧ t.fc = fc) ∧
    (∀ (file : FileId) (pec : ErrorContext) (ts : List Token) (fc : FC)
        (ctx : ErrorContext),
      (parse_gene_statement file pec ts).res =
        Except.error (.UnexpectedToken fc ctx) →
      ∃ t l, (parse_gene_statement file pec ts).rest = t :: l ∧ t.fc = fc) ∧
    (∀ (file : FileId) (pec : ErrorContext) (ts : List Token) (fc : FC)
        (ctx : ErrorContext),
      (parse_product_list file pec ts).res =
        Except.error (.UnexpectedToken fc ctx) →
      ∃ t l, (parse_product_list file pec ts).rest = t :: l ∧ t.fc = fc) := by
  refine ⟨?_, ?_, ?_, ?_, ?_⟩
  · intro file ts fc ctx h
    exact errOk_parse_file file ts _ h
  · intro file pec ts fc ctx h
    exact errOk_parse_expression file pec ts _ h
  · intro file pec ts fc ctx h
    exact errOk_parse_binding file pec ts _ h
  · intro file pec ts fc ctx h
    exact errOk_parse_gene_statement file pec ts _ h
  · intro file pec ts fc ctx h
    exact errOk_parse_product_list file pec ts _ h

/-- Claim C9 witness: at a concrete failing input, the offending token is
still the head of the remaining sequence. -/
theorem c9_unexpected_token_not_consumed_witness :
    ∃ t l, (parse_file 0 [tok 0 .Comma]).2 = t :: l ∧ t.fc = ⟨0, 0, 1⟩ :=
  c9_unexpected_token_not_consumed.1 0 [tok 0 .Comma] ⟨0, 0, 1⟩
    ((CTX.whileParsing "a top level item").expecting
      "`record`, `gene`, `rule` or `extern`")
    (by simp [tok, parse_file, parseItems])

/-- Claim C5 counterexample: the token sequence of `extern f ( a b` opens a
bracketed list and ends before any closing delimiter, yet the parse fails
with `UnexpectedToken` (at the still-present token `b`), not with
`UnexpectedEnd`. -/
theorem c5_unexpected_end_counterexample :
    (parse_file 0 [tok 0 .Extern, tok 1 (.Identifier "f"), tok 2 .ParenOpen,
        tok 3 (.Identifier "a"), tok 4 (.Identifier "b")]).1 =
      Except.error (.UnexpectedToken ⟨0, 4, 5⟩
        (ErrorContext.mk (some (⟨0, 0, 1⟩, "extern item"))
          "an extern parameter description" (some "`:`"))) ∧
    Error.isUnexpectedEnd (.UnexpectedToken ⟨0, 4, 5⟩
        (ErrorContext.mk (some (⟨0, 0, 1⟩, "extern item"))
          "an extern parameter description" (some "`:`"))) = false := by
  constructor
  · simp [tok, parse_file, parseItems]
  · rfl

/-- Claim C5 (amended): whenever a parse fails with the token sequence
exhausted (no remaining tokens at the failure point), the error is
`UnexpectedEnd` carrying the parser's file id, never `UnexpectedToken`; in
particular a bracketed list whose token sequence ends exactly where the next
element, separator or closing delimiter is required fails with
`UnexpectedEnd`, as in `extern f (`. -/
theorem c5_unexpected_end_amended :
    (∀ (file : FileId) (ts : List Token) (e : Error),
      (parse_file file ts).1 = Except.error e → (parse_file file ts).2 = [] →
      ∃ ctx, e = .UnexpectedEnd file ctx) ∧
    parse_file 0 [tok 0 .Extern, tok 1 (.Identifier "f"), tok 2 .ParenOpen] =
      (Except.error (.UnexpectedEnd 0
        (ErrorContext.mk (some (⟨0, 0, 1⟩, "extern item"))
          "an extern item parameter" (some "an identifier"))), []) := by
  constructor
  · intro file ts e h1 h2
    have h := errOk_parse_file file ts e h1
    cases e with
    | UnexpectedToken fc ctx =>
      obtain ⟨t, l, hl, _⟩ := h
      rw [h2] at hl
      exact absurd hl (by simp)
    | UnexpectedEnd fid ctx =>
      obtain ⟨_, hf⟩ := h
      exact ⟨ctx, by rw [hf]⟩
  · simp [tok, parse_file, parseItems]

/-- Claim C5 amended witness: the hypotheses discharged at the concrete
unterminated list `extern f (`. -/
theorem c5_unexpected_end_amended_witness :
    ∃ ctx, Error.UnexpectedEnd 0
        (ErrorContext.mk (some (⟨0, 0, 1⟩, "extern item"))
          "an extern item parameter" (some "an identifier")) =
      Error.UnexpectedEnd 0 ctx :=
  c5_unexpected_end_amended.1 0
    [tok 0 .Extern, tok 1 (.Identifier "f"), tok 2 .ParenOpen]
    (Error.UnexpectedEnd 0
      (ErrorContext.mk (some (⟨0, 0, 1⟩, "extern item"))
        "an extern item parameter" (some "an identifier")))
    (by simp [tok, parse_file, parseItems])
    (by simp [tok, parse_file, parseItems])

end Cytosol
